import Mathlib

/-!
Verification of the PDF brochure-generation service of the
AI-Property-Listing-Brochure-Generator repository.

The service (Go, `services/pdf.go`) is shallowly embedded here.  Go strings
are modelled as lists of Unicode codepoints (`GoStr`); for well-formed UTF-8
strings the byte-level operations the service performs (prefix tests, prefix
slicing after a matched prefix, suffix slicing of ASCII URLs) agree with the
codepoint-level operations used below.  float64 quantities are modelled as
rationals.  Drawing calls are modelled as an explicit operation trace
(`Op` / `Pdf`), with the behaviour of the external collaborators (HTTP image
fetch, the gofpdf layout engine's line wrapping, the filesystem check for font
files, the final PDF encoder) abstracted into an `Env` parameter.
-/

namespace Brochure

/-- Go strings as lists of Unicode codepoints. -/
abbrev GoStr := List Nat

/-- Embed a Lean string literal as a `GoStr`. -/
def gs (s : String) : GoStr := s.data.map Char.toNat

/-! ### UTF-8 and Latin-1, used by `fixMojibakeLatin1ToUTF8` -/

/-- UTF-8 encoding of a single codepoint (the standard 1–4 byte scheme). -/
def utf8EncodeChar (c : Nat) : List Nat :=
  if c < 0x80 then [c]
  else if c < 0x800 then [0xC0 + c / 0x40, 0x80 + c % 0x40]
  else if c < 0x10000 then
    [0xE0 + c / 0x1000, 0x80 + (c / 0x40) % 0x40, 0x80 + c % 0x40]
  else
    [0xF0 + c / 0x40000, 0x80 + (c / 0x1000) % 0x40, 0x80 + (c / 0x40) % 0x40,
      0x80 + c % 0x40]

/-- UTF-8 encoding of a string (its byte sequence). -/
def utf8Encode (s : GoStr) : List Nat := (s.map utf8EncodeChar).flatten

/-- ISO 8859-1 (Latin-1) decoding: every byte decodes to the equally numbered
codepoint, and no byte is invalid, so decoding never fails.  This is what
`charmap.ISO8859_1.NewDecoder()` does to a byte stream. -/
def latin1Decode (bs : List Nat) : GoStr := bs

/-- ISO 8859-1 encoding: a codepoint above U+00FF has no Latin-1 byte. -/
def latin1Encode (s : GoStr) : Option (List Nat) :=
  if s.all (· < 0x100) then some s else none

/-- Strict UTF-8 decoding of a byte sequence (rejecting overlong forms,
surrogates and out-of-range codepoints), `none` on any decode error. -/
def utf8Decode : List Nat → Option GoStr
  | [] => some []
  | b :: bs =>
    if b < 0x80 then (utf8Decode bs).map (b :: ·)
    else if b < 0xC2 then none
    else if b < 0xE0 then
      match bs with
      | b2 :: bs2 =>
        if 0x80 ≤ b2 ∧ b2 < 0xC0 then
          (utf8Decode bs2).map (((b - 0xC0) * 0x40 + (b2 - 0x80)) :: ·)
        else none
      | [] => none
    else if b < 0xF0 then
      match bs with
      | b2 :: b3 :: bs3 =>
        if (0x80 ≤ b2 ∧ b2 < 0xC0) ∧ (0x80 ≤ b3 ∧ b3 < 0xC0) then
          let cp := (b - 0xE0) * 0x1000 + (b2 - 0x80) * 0x40 + (b3 - 0x80)
          if cp < 0x800 ∨ (0xD800 ≤ cp ∧ cp < 0xE000) then none
          else (utf8Decode bs3).map (cp :: ·)
        else none
      | _ => none
    else if b < 0xF5 then
      match bs with
      | b2 :: b3 :: b4 :: bs4 =>
        if (0x80 ≤ b2 ∧ b2 < 0xC0) ∧ (0x80 ≤ b3 ∧ b3 < 0xC0) ∧
            (0x80 ≤ b4 ∧ b4 < 0xC0) then
          let cp := (b - 0xF0) * 0x40000 + (b2 - 0x80) * 0x1000 +
            (b3 - 0x80) * 0x40 + (b4 - 0x80)
          if cp < 0x10000 ∨ 0x10FFFF < cp then none
          else (utf8Decode bs4).map (cp :: ·)
        else none
      | _ => none
    else none

/-- Codepoints of the Arabic block U+0600–U+06FF, as tested by the service. -/
def isArabicCp (r : Nat) : Bool := decide (0x0600 ≤ r) && decide (r ≤ 0x06FF)

/-- Embedding of `fixMojibakeLatin1ToUTF8` (services/pdf.go).  The source
returns the input unchanged when it contains an Arabic codepoint or no `Ã`
marker (U+00C3); otherwise it feeds the UTF-8 bytes of the input through an
ISO 8859-1 *decoder* (`charmap.ISO8859_1.NewDecoder()`), which maps every byte
to the equally numbered codepoint and cannot fail, so the transform branch
yields exactly `latin1Decode (utf8Encode text)`. -/
def fixMojibakeLatin1ToUTF8 (text : GoStr) : GoStr :=
  if text.any isArabicCp then text
  else if !(text.contains 0xC3) then text
  else latin1Decode (utf8Encode text)

/-- Modelled from the spec: the repair described in §4.1 of the spec for
`repairMojibake`, with the same two guards as the code, but performing the
described transform — "reinterpret the byte sequence as
Latin-1-decoded-from-UTF-8 and re-decode to UTF-8; on any decode error, return
the original text unchanged", i.e. re-encode the codepoints as Latin-1 bytes
and decode those bytes as UTF-8. -/
def repairMojibakeSpec (text : GoStr) : GoStr :=
  if text.any isArabicCp then text
  else if !(text.contains 0xC3) then text
  else
    match latin1Encode text with
    | none => text
    | some bs => (utf8Decode bs).getD text

/-! ### The bullet-prefix sanitizer -/

/-- The Unicode White_Space codepoints trimmed by Go `strings.TrimSpace`. -/
def goIsSpace (c : Nat) : Bool :=
  (decide (0x09 ≤ c) && decide (c ≤ 0x0D)) || c == 0x20 || c == 0x85 ||
  c == 0xA0 || c == 0x1680 || (decide (0x2000 ≤ c) && decide (c ≤ 0x200A)) ||
  c == 0x2028 || c == 0x2029 || c == 0x202F || c == 0x205F || c == 0x3000

/-- Go `strings.TrimSpace`: drop leading and trailing white space. -/
def trimSpace (s : GoStr) : GoStr :=
  ((s.dropWhile goIsSpace).reverse.dropWhile goIsSpace).reverse

/-- The ordered prefix list of `sanitizeBulletText`:
`"â€¢", "•", "->", "=>", "—", "·", "--", "-", "*"`. -/
def badPrefixes : List GoStr :=
  [gs "â€¢", gs "•", gs "->", gs "=>", gs "—", gs "·", gs "--", gs "-", gs "*"]

/-- The prefix-removal loop of `sanitizeBulletText`: the first matching entry
is removed (preferring the form followed by a space) and the loop breaks. -/
def stripBulletLoop (trimmed : GoStr) : List GoStr → GoStr
  | [] => trimmed
  | p :: ps =>
    if (p ++ [0x20]).isPrefixOf trimmed then trimSpace (trimmed.drop (p.length + 1))
    else if p.isPrefixOf trimmed then trimSpace (trimmed.drop p.length)
    else stripBulletLoop trimmed ps

/-- Embedding of `sanitizeBulletText` (services/pdf.go). -/
def sanitizeBulletText (text : GoStr) : GoStr :=
  stripBulletLoop (trimSpace text) badPrefixes

/-! ### Price and location formatting -/

/-- Rounding to an integer as Go `fmt.Sprintf("%.0f", x)` does (round half to
even), computed on the numerator and denominator: `fl` is `⌊q⌋` and `rem2` is
`2·den·(q − ⌊q⌋)`, so `q − ⌊q⌋ < 1/2` iff `rem2 < den`. -/
def goRound (q : ℚ) : Int :=
  let fl := Int.fdiv q.num (q.den : Int)
  let rem2 := 2 * (q.num - fl * (q.den : Int))
  if rem2 < (q.den : Int) then fl
  else if (q.den : Int) < rem2 then fl + 1
  else if fl % 2 = 0 then fl else fl + 1

/-- Decimal digit codepoints of a natural number, most significant first,
with explicit fuel (any fuel above the number of digits gives the digits). -/
def natDigitsCore (fuel : Nat) (n : Nat) : GoStr :=
  match fuel with
  | 0 => []
  | fuel + 1 =>
    if n < 10 then [0x30 + n] else natDigitsCore fuel (n / 10) ++ [0x30 + n % 10]

/-- Decimal digit codepoints of a natural number, most significant first. -/
def natDigits (n : Nat) : GoStr := natDigitsCore (n + 1) n

/-- Decimal rendering of an integer (minus sign then digits). -/
def intToGoStr (i : Int) : GoStr :=
  if i < 0 then 0x2D :: natDigits i.natAbs else natDigits i.natAbs

/-- The separator-insertion loop of `formatPrice`: iterating over the digit
string of length `n` with index `i`, a comma is emitted before the current
character whenever `i > 0` and `(n - i) % 3 = 0`. -/
def sepLoop (n : Nat) : Nat → GoStr → GoStr
  | _, [] => []
  | i, d :: rest =>
    (if 0 < i ∧ (n - i) % 3 = 0 then [0x2C, d] else [d]) ++ sepLoop n (i + 1) rest

/-- Embedding of `formatPrice` (services/pdf.go): default empty currency to
"USD", render the rounded price, insert thousand separators when the digit
string is longer than 3, and join currency and amount with one space. -/
def formatPrice (price : ℚ) (currency : GoStr) : GoStr :=
  let currency := if currency = [] then gs "USD" else currency
  let priceStr := intToGoStr (goRound price)
  let priceStr :=
    if 3 < priceStr.length then sepLoop priceStr.length 0 priceStr else priceStr
  currency ++ [0x20] ++ priceStr

/-- Modelled from the spec (§4.6): group a digit string with a `','` every
three digits counted from the least-significant digit. -/
def groupThousandsSpec (ds : GoStr) : GoStr :=
  if h : ds.length ≤ 3 then ds
  else
    groupThousandsSpec (ds.take (ds.length - 3)) ++ [0x2C] ++
      ds.drop (ds.length - 3)
termination_by ds.length
decreasing_by
  simp only [List.length_take]
  omega

/-! ### Aspect fit and image identifiers (`addImageFromURL`) -/

/-- A placed rectangle (position and size), as finally handed to
`pdf.ImageOptions`. -/
structure PlacedBox where
  x : ℚ
  y : ℚ
  w : ℚ
  h : ℚ
deriving DecidableEq

/-- The aspect-fit computation of `addImageFromURL` for a decoded image of
intrinsic size `imgW × imgH` placed into the box `(x, y, w, h)`:
`scale := w / imgW`, corrected to `h / imgH` when `imgH * scale > h`;
the drawn rectangle is `imgW*scale × imgH*scale` centred in the box. -/
def aspectFit (x y w h imgW imgH : ℚ) : PlacedBox :=
  let scale := w / imgW
  let scale := if h < imgH * scale then h / imgH else scale
  let drawW := imgW * scale
  let drawH := imgH * scale
  { x := x + (w - drawW) / 2, y := y + (h - drawH) / 2, w := drawW, h := drawH }

/-- The last 20 bytes of the URL (`url[len(url)-20:]`), or all of it when it
is short; URLs are ASCII so byte and codepoint slicing agree. -/
def urlSuffixLast20 (url : GoStr) : GoStr :=
  if 20 < url.length then url.drop (url.length - 20) else url

/-- The identifier registered for an image placement:
`fmt.Sprintf("img_%s_%.0f_%.0f", urlSuffix, x, y)` where `x, y` are the final
(already aspect-fit adjusted) coordinates. -/
def uniqueImageName (url : GoStr) (x y : ℚ) : GoStr :=
  gs "img_" ++ urlSuffixLast20 url ++ [0x5F] ++ intToGoStr (goRound x) ++
    [0x5F] ++ intToGoStr (goRound y)

/-! ### The property data model (backend/models/property.go)

The `LocalizedContent` fields `additionalSectionTitle`,
`additionalSectionContent` and `thankYouMessage` are referenced by the PDF
service even though the copy of models/property.go in the repository snapshot
predates them; they are included here as the service reads them. -/

structure AgentInfo where
  name : GoStr
  email : GoStr
  phone : GoStr

structure AIContent where
  englishDescription : GoStr
  arabicDescription : GoStr
  keyHighlights : List GoStr

structure LocalizedContent where
  title : GoStr
  description : GoStr
  priceLabel : GoStr
  addressLabel : GoStr
  cityLabel : GoStr
  stateLabel : GoStr
  zipCodeLabel : GoStr
  highlights : List GoStr
  amenitiesLabel : GoStr
  amenities : List GoStr
  agentLabel : GoStr
  propertyDescriptionLabel : GoStr
  keyHighlightsLabel : GoStr
  propertyGalleryLabel : GoStr
  additionalSectionTitle : GoStr
  additionalSectionContent : GoStr
  thankYouMessage : GoStr

structure Property where
  title : GoStr
  description : GoStr
  price : ℚ
  currency : GoStr
  address : GoStr
  city : GoStr
  state : GoStr
  zipCode : GoStr
  amenities : List GoStr
  imageURLs : List GoStr
  agentInfo : AgentInfo
  aiContent : AIContent
  englishContent : LocalizedContent
  arabicContent : LocalizedContent

/-- Embedding of `formatLocation`: join the non-empty address parts with
`", "`, or a fixed placeholder when all are empty. -/
def formatLocation (p : Property) : GoStr :=
  let parts := [p.address, p.city, p.state, p.zipCode].filter (· ≠ [])
  if parts = [] then gs "Location not specified"
  else (parts.intersperse (gs ", ")).flatten

/-! ### Layout constants (services/pdf.go `const` block) -/

def pageWidth : ℚ := 210
def pageHeight : ℚ := 297
def marginX : ℚ := 15
def marginY : ℚ := 15
def contentWidth : ℚ := pageWidth - 2 * marginX

/-! ### The drawing trace

gofpdf calls are recorded as a trace of operations.  Pure style setters
(`SetFillColor`, `SetDrawColor`, `SetTextColor`, `SetLineWidth`,
`SetAutoPageBreak`) change no observable geometry or content and are not
recorded; `SetX` is not recorded either since the x cursor is never read back
by the service.  The y cursor is tracked because the service reads it with
`GetY`.  The wrapping behaviour of `MultiCell`/`SplitLines` and the outcome of
image fetches, font-file checks and the final encoder belong to external
collaborators and are supplied by an `Env`. -/

inductive Op
  | addPage
  | rect (x y w h : ℚ) (style : GoStr)
  | line (x1 y1 x2 y2 : ℚ)
  | circle (x y r : ℚ)
  | setFont (family style : GoStr) (size : ℚ)
  | cell (w h : ℚ) (txt : GoStr) (ln : Nat) (align : GoStr)
  | multiCellOp (w h : ℚ) (txt : GoStr) (align : GoStr)
  | image (name : GoStr) (x y w h : ℚ)
deriving DecidableEq

/-- Result of fetching and decoding one image URL. -/
inductive FetchResult
  | httpError
  | decodeError
  | ok (w h : Nat)
deriving DecidableEq

/-- External collaborators: font files on disk, the branding env var, the
image fetcher, gofpdf's text wrapping, and the final encoder verdict. -/
structure Env where
  hasArabicFontFile : Bool
  hasBodyFontFile : Bool
  brandLogoURL : GoStr
  fetch : GoStr → FetchResult
  splitLines : GoStr → ℚ → List GoStr
  multiCellEndY : ℚ → ℚ → GoStr → ℚ → ℚ
  outputError : Option GoStr

/-- The gofpdf document state: the trace of drawing operations and the
y cursor. -/
structure Pdf where
  ops : List Op
  y : ℚ

def Pdf.emit (pdf : Pdf) (op : Op) : Pdf :=
  { pdf with ops := pdf.ops ++ [op] }

/-- `pdf.AddPage()`: the y cursor is reset (to the top margin in gofpdf); the
service always sets y explicitly before reading it, so the reset value is
never observed. -/
def Pdf.addPage (pdf : Pdf) : Pdf :=
  { pdf.emit .addPage with y := 0 }

def Pdf.rect (pdf : Pdf) (x y w h : ℚ) (style : GoStr) : Pdf :=
  pdf.emit (.rect x y w h style)

def Pdf.line (pdf : Pdf) (x1 y1 x2 y2 : ℚ) : Pdf :=
  pdf.emit (.line x1 y1 x2 y2)

def Pdf.circle (pdf : Pdf) (x y r : ℚ) : Pdf :=
  pdf.emit (.circle x y r)

def Pdf.setFont (pdf : Pdf) (family style : GoStr) (size : ℚ) : Pdf :=
  pdf.emit (.setFont family style size)

/-- `pdf.SetY(v)`: a negative argument positions relative to the bottom of the
page. -/
def Pdf.setY (pdf : Pdf) (v : ℚ) : Pdf :=
  { pdf with y := if v < 0 then pageHeight + v else v }

def Pdf.setXY (pdf : Pdf) (x y : ℚ) : Pdf :=
  { pdf with y := y }

def Pdf.setX (pdf : Pdf) (x : ℚ) : Pdf := pdf

def Pdf.lnBreak (pdf : Pdf) (h : ℚ) : Pdf :=
  { pdf with y := pdf.y + h }

/-- `pdf.CellFormat(w, h, txt, border, ln, align, fill, link, linkStr)`;
`ln = 1` moves the cursor to the next line. -/
def Pdf.cellFormat (pdf : Pdf) (w h : ℚ) (txt : GoStr) (ln : Nat)
    (align : GoStr) : Pdf :=
  let p := pdf.emit (.cell w h txt ln align)
  if ln = 1 then { p with y := p.y + h } else p

/-- `pdf.MultiCell(w, h, txt, border, align, fill)`: the final y depends on
the wrapping performed by gofpdf, supplied by the environment. -/
def Pdf.multiCell (env : Env) (pdf : Pdf) (w h : ℚ) (txt align : GoStr) : Pdf :=
  let p := pdf.emit (.multiCellOp w h txt align)
  { p with y := env.multiCellEndY w h txt pdf.y }

def Pdf.getY (pdf : Pdf) : ℚ := pdf.y

/-! ### The PDF service state (`PDFService`, `NewPDFService`, `setupFonts`) -/

structure Svc where
  arabicFontName : GoStr
  hasArabicFont : Bool
  brandLogoURL : GoStr
  bodyFontName : GoStr
  hasBodyFont : Bool

/-- Embedding of `setupFonts`: probe the two font files, and fall back to the
Arabic font as body font when only the Arabic font is present.  (The
`AddUTF8Font` registrations draw nothing and are not traced.) -/
def setupFonts (env : Env) (logoURL : GoStr) : Svc :=
  let arabic := if env.hasArabicFontFile then (gs "ArabicFont", true) else ([], false)
  let body := if env.hasBodyFontFile then (gs "BodyFont", true) else ([], false)
  if !body.2 && arabic.2 then
    { arabicFontName := arabic.1, hasArabicFont := arabic.2,
      brandLogoURL := logoURL, bodyFontName := arabic.1, hasBodyFont := true }
  else
    { arabicFontName := arabic.1, hasArabicFont := arabic.2,
      brandLogoURL := logoURL, bodyFontName := body.1, hasBodyFont := body.2 }

/-- `NewPDFService` (reads `BRAND_LOGO_URL`) followed by the per-call
`setupFonts`. -/
def mkSvc (env : Env) : Svc := setupFonts env env.brandLogoURL

/-! ### Image placement (`addImageFromURL`) -/

/-- Embedding of `addImageFromURL`.  The second component is `true` when the
Go function returns a nil error.  A download (or body read) failure returns an
error before anything is drawn; a decode failure still places the image
filling the whole requested box; a successful decode with positive intrinsic
dimensions places the aspect-fit rectangle.  (The content-type inspection
picking "png"/"jpg" only sets registration metadata and is not traced.) -/
def addImageFromURL (env : Env) (pdf : Pdf) (url : GoStr) (x y w h : ℚ) :
    Pdf × Bool :=
  match env.fetch url with
  | .httpError => (pdf, false)
  | .decodeError =>
    let name := uniqueImageName url x y
    (pdf.emit (.image name x y w h), true)
  | .ok iw ih =>
    if 0 < iw ∧ 0 < ih then
      let b := aspectFit x y w h (iw : ℚ) (ih : ℚ)
      let name := uniqueImageName url b.x b.y
      (pdf.emit (.image name b.x b.y b.w b.h), true)
    else
      let name := uniqueImageName url x y
      (pdf.emit (.image name x y w h), true)

/-- Embedding of `addBrandingIfAvailable`: a `18 × 18` logo box at the
top-right corner of every page, errors ignored. -/
def addBrandingIfAvailable (env : Env) (svc : Svc) (pdf : Pdf) : Pdf :=
  if svc.brandLogoURL = [] then pdf
  else (addImageFromURL env pdf svc.brandLogoURL (pageWidth - marginX - 18) 6 18 18).1

/-! ### Decorations and footer -/

/-- Embedding of `addPageBackground`. -/
def addPageBackground (pdf : Pdf) : Pdf :=
  pdf.rect 0 0 pageWidth pageHeight (gs "F")

/-- Embedding of `addDecorativeCorners`. -/
def addDecorativeCorners (pdf : Pdf) : Pdf :=
  let pdf := pdf.line 5 5 15 5
  let pdf := pdf.line 5 5 5 15
  let pdf := pdf.line (pageWidth - 15) 5 (pageWidth - 5) 5
  let pdf := pdf.line (pageWidth - 5) 5 (pageWidth - 5) 15
  let pdf := pdf.line 5 (pageHeight - 15) 5 (pageHeight - 5)
  let pdf := pdf.line 5 (pageHeight - 5) 15 (pageHeight - 5)
  let pdf := pdf.line (pageWidth - 15) (pageHeight - 5) (pageWidth - 5) (pageHeight - 5)
  pdf.line (pageWidth - 5) (pageHeight - 15) (pageWidth - 5) (pageHeight - 5)

/-- The diamond-with-lines decoration drawn by `addBottomDiamondDecoration`
and inlined at the bottom of both cover pages. -/
def diamondLines (pdf : Pdf) : Pdf :=
  let centerX := pageWidth / 2
  let diamondY : ℚ := 272
  let pdf := pdf.line (centerX - 4) diamondY centerX (diamondY - 3)
  let pdf := pdf.line centerX (diamondY - 3) (centerX + 4) diamondY
  let pdf := pdf.line (centerX + 4) diamondY centerX (diamondY + 3)
  let pdf := pdf.line centerX (diamondY + 3) (centerX - 4) diamondY
  let pdf := pdf.line (marginX + 50) diamondY (centerX - 6) diamondY
  pdf.line (centerX + 6) diamondY (pageWidth - marginX - 50) diamondY

/-- Embedding of `addBottomDiamondDecoration`. -/
def addBottomDiamondDecoration (pdf : Pdf) : Pdf :=
  diamondLines (pdf.setY 268)

/-- The text drawn by `addPageNumber`: `fmt.Sprintf("Page %d", pageNum)`. -/
def pageNumText (n : Nat) : GoStr := gs "Page " ++ natDigits n

/-- The page-number cell operation. -/
def pageNumCell (n : Nat) : Op := .cell 0 10 (pageNumText n) 0 (gs "C")

/-- Embedding of `addPageNumber`. -/
def addPageNumber (pdf : Pdf) (n : Nat) : Pdf :=
  ((pdf.setY (-10)).setFont (gs "Arial") (gs "I") 9).cellFormat 0 10
    (pageNumText n) 0 (gs "C")

/-! ### Section headers -/

/-- Embedding of `addSectionHeader`: filled bar, left-aligned title cell, gold
accent line, returning `y + 15`. -/
def addSectionHeader (pdf : Pdf) (title : GoStr) (y : ℚ) : Pdf × ℚ :=
  let pdf := pdf.rect marginX y contentWidth 10 (gs "F")
  let pdf := pdf.setXY (marginX + 5) (y + 1.5)
  let pdf := pdf.setFont (gs "Arial") (gs "B") 13
  let pdf := pdf.cellFormat (contentWidth - 10) 7 title 0 (gs "L")
  let pdf := pdf.line marginX (y + 10) (pageWidth - marginX) (y + 10)
  (pdf, y + 15)

/-- Embedding of `addSectionHeaderAligned`: custom font and alignment
(anything other than "R" becomes "L"). -/
def addSectionHeaderAligned (pdf : Pdf) (title : GoStr) (y : ℚ)
    (fontName align : GoStr) : Pdf × ℚ :=
  let align := if align ≠ gs "R" then gs "L" else align
  let pdf := pdf.rect marginX y contentWidth 10 (gs "F")
  let pdf :=
    if fontName ≠ [] then pdf.setFont fontName [] 13
    else pdf.setFont (gs "Arial") (gs "B") 13
  let pdf := pdf.setXY (marginX + 5) (y + 1.5)
  let pdf := pdf.cellFormat (contentWidth - 10) 7 title 0 align
  let pdf := pdf.line marginX (y + 10) (pageWidth - marginX) (y + 10)
  (pdf, y + 15)

/-- Embedding of `addSectionHeaderWithIcon`: bar, two accent bars, icon
circle, title cell, accent line, returning `y + 15`. -/
def addSectionHeaderWithIcon (pdf : Pdf) (title : GoStr) (y : ℚ)
    (iconType : GoStr) : Pdf × ℚ :=
  let pdf := pdf.rect marginX y contentWidth 10 (gs "F")
  let pdf := pdf.rect marginX y 3 10 (gs "F")
  let pdf := pdf.rect (pageWidth - marginX - 3) y 3 10 (gs "F")
  let pdf := pdf.circle (marginX + 8) (y + 5) 2
  let pdf := pdf.setXY (marginX + 14) (y + 1.5)
  let pdf := pdf.setFont (gs "Arial") (gs "B") 13
  let pdf := pdf.cellFormat (contentWidth - 20) 7 title 0 (gs "L")
  let pdf := pdf.line marginX (y + 10) (pageWidth - marginX) (y + 10)
  (pdf, y + 15)

/-! ### Details page content (`addEnglishDetailsContent` /
`addArabicDetailsContent`) -/

/-- The content and labels a details page draws. -/
structure DetailsData where
  descLabel : GoStr
  highlightsLabel : GoStr
  amenitiesLabel : GoStr
  description : GoStr
  highlights : List GoStr
  amenities : List GoStr
deriving DecidableEq

/-- The branch selection at the top of `addEnglishDetailsContent`: when the
localized English description is non-empty every field, labels included, is
taken from `EnglishContent` as-is; otherwise the legacy fields are used with
fixed built-in labels. -/
def englishDetailsData (p : Property) : DetailsData :=
  if p.englishContent.description ≠ [] then
    { descLabel := p.englishContent.propertyDescriptionLabel
      highlightsLabel := p.englishContent.keyHighlightsLabel
      amenitiesLabel := p.englishContent.amenitiesLabel
      description := p.englishContent.description
      highlights := p.englishContent.highlights
      amenities := p.englishContent.amenities }
  else
    { descLabel := gs "Property Description"
      highlightsLabel := gs "Key Highlights"
      amenitiesLabel := gs "Amenities & Features"
      description :=
        if p.aiContent.englishDescription = [] then p.description
        else p.aiContent.englishDescription
      highlights := p.aiContent.keyHighlights
      amenities := p.amenities }

/-- The branch selection at the top of `addArabicDetailsContent`. -/
def arabicDetailsData (p : Property) : DetailsData :=
  if p.arabicContent.description ≠ [] then
    { descLabel := p.arabicContent.propertyDescriptionLabel
      highlightsLabel := p.arabicContent.keyHighlightsLabel
      amenitiesLabel := p.arabicContent.amenitiesLabel
      description := p.arabicContent.description
      highlights := p.arabicContent.highlights
      amenities := p.arabicContent.amenities }
  else
    { descLabel := gs "وصف العقار"
      highlightsLabel := gs "المميزات الرئيسية"
      amenitiesLabel := gs "المرافق والميزات"
      description := p.aiContent.arabicDescription
      highlights := []
      amenities := p.amenities }

/-- Row height of the amenities grid (`amenityHeight := 7.0`). -/
def amenityHeight : ℚ := 7

/-- Column width of the amenities grid (`colWidth := (contentWidth-10)/2`). -/
def amenityColWidth : ℚ := (contentWidth - 10) / 2

/-- The English amenities-grid loop (`for i, amenity := range amenities`):
item `i` goes to column `i % 2`; a checkmark is drawn with two vector lines,
then the amenity text; the y cursor advances by one row height after every
right-column item. -/
def amenityGridLoopEn (svc : Svc) (pdf : Pdf) (i : Nat) :
    List GoStr → ℚ → Pdf × ℚ
  | [], y => (pdf, y)
  | amenity :: rest, y =>
    let col := i % 2
    let xPos := marginX + (col : ℚ) * (amenityColWidth + 10)
    let pdf := pdf.setXY xPos y
    let startX := xPos
    let startY := y + amenityHeight / 2
    let pdf := pdf.line startX startY (startX + 2) (startY + 2)
    let pdf := pdf.line (startX + 2) (startY + 2) (startX + 6) (startY - 1)
    let pdf :=
      if svc.hasBodyFont then pdf.setFont svc.bodyFontName [] 10
      else pdf.setFont (gs "Arial") [] 10
    let pdf := pdf.setX (xPos + 9)
    let pdf := pdf.cellFormat (amenityColWidth - 7) amenityHeight amenity 0 []
    let y := if col = 1 then y + amenityHeight else y
    amenityGridLoopEn svc pdf (i + 1) rest y

/-- The English amenities grid: the loop plus the extra row height added when
the item count is odd. -/
def amenitiesGridEn (svc : Svc) (pdf : Pdf) (items : List GoStr) (y : ℚ) :
    Pdf × ℚ :=
  let r := amenityGridLoopEn svc pdf 0 items y
  if items.length % 2 = 1 then (r.1, r.2 + amenityHeight) else r

/-- The Arabic amenities-grid loop: same geometry, Arabic font when present,
and the amenity text passed through the mojibake fix. -/
def amenityGridLoopAr (svc : Svc) (pdf : Pdf) (i : Nat) :
    List GoStr → ℚ → Pdf × ℚ
  | [], y => (pdf, y)
  | amenity :: rest, y =>
    let col := i % 2
    let xPos := marginX + (col : ℚ) * (amenityColWidth + 10)
    let pdf := pdf.setXY xPos y
    let startX := xPos
    let startY := y + amenityHeight / 2
    let pdf := pdf.line startX startY (startX + 2) (startY + 2)
    let pdf := pdf.line (startX + 2) (startY + 2) (startX + 6) (startY - 1)
    let amenity := fixMojibakeLatin1ToUTF8 amenity
    let pdf :=
      if svc.hasArabicFont then pdf.setFont svc.arabicFontName [] 10
      else pdf.setFont (gs "Arial") [] 10
    let pdf := pdf.setX (xPos + 9)
    let pdf := pdf.cellFormat (amenityColWidth - 7) amenityHeight amenity 0 []
    let y := if col = 1 then y + amenityHeight else y
    amenityGridLoopAr svc pdf (i + 1) rest y

/-- The Arabic amenities grid with the odd-count extra row. -/
def amenitiesGridAr (svc : Svc) (pdf : Pdf) (items : List GoStr) (y : ℚ) :
    Pdf × ℚ :=
  let r := amenityGridLoopAr svc pdf 0 items y
  if items.length % 2 = 1 then (r.1, r.2 + amenityHeight) else r

/-- The English highlights loop: each highlight is sanitized, a gold bullet
circle is drawn, then the text as a `MultiCell`, advancing by `GetY() + 1`. -/
def highlightsLoopEn (env : Env) (pdf : Pdf) :
    List GoStr → ℚ → Pdf × ℚ
  | [], y => (pdf, y)
  | raw :: rest, y =>
    let highlight := sanitizeBulletText raw
    let bulletX := marginX + 5
    let bulletY := y + 3.5
    let pdf := pdf.circle bulletX bulletY 1.6
    let pdf := pdf.setFont (gs "Arial") [] 11
    let pdf := pdf.setXY (marginX + 12) y
    let pdf := pdf.multiCell env (contentWidth - 12) 6 highlight (gs "L")
    highlightsLoopEn env pdf rest (pdf.getY + 1)

/-- The Arabic highlights loop: sanitize then mojibake-fix, bullet on the
right side, right-aligned `MultiCell`. -/
def highlightsLoopAr (env : Env) (svc : Svc) (pdf : Pdf) :
    List GoStr → ℚ → Pdf × ℚ
  | [], y => (pdf, y)
  | raw :: rest, y =>
    let highlight := fixMojibakeLatin1ToUTF8 (sanitizeBulletText raw)
    let bulletX := pageWidth - marginX - 5
    let bulletY := y + 3.5
    let pdf := pdf.circle bulletX bulletY 1.6
    let pdf :=
      if svc.hasArabicFont then pdf.setFont svc.arabicFontName [] 11
      else pdf.setFont (gs "Arial") [] 11
    let pdf := pdf.setXY marginX y
    let pdf := pdf.multiCell env (contentWidth - 12) 6 highlight (gs "R")
    highlightsLoopAr env svc pdf rest (pdf.getY + 1)

/-- Embedding of `addEnglishDetailsContent`. -/
def addEnglishDetailsContent (env : Env) (svc : Svc) (p : Property)
    (pdf : Pdf) (currentY : ℚ) : Pdf × ℚ :=
  let d := englishDetailsData p
  let description :=
    if d.description = [] then gs "No description available." else d.description
  let r0 := addSectionHeader pdf d.descLabel currentY
  let pdf :=
    if svc.hasBodyFont then r0.1.setFont svc.bodyFontName [] 11
    else r0.1.setFont (gs "Arial") [] 11
  let pdf := pdf.setXY marginX r0.2
  let pdf := pdf.multiCell env contentWidth 5.5 description (gs "L")
  let currentY := pdf.getY + 8
  let r1 :=
    if d.highlights ≠ [] then
      let r2 := addSectionHeader pdf d.highlightsLabel currentY
      let pdf := r2.1.setFont (gs "Arial") [] 11
      let r3 := highlightsLoopEn env pdf d.highlights r2.2
      (r3.1, r3.2 + 6)
    else (pdf, currentY)
  if d.amenities ≠ [] then
    let currentY := if 220 < r1.2 then 220 else r1.2
    let r4 := addSectionHeader r1.1 d.amenitiesLabel currentY
    let pdf := r4.1.setFont (gs "Arial") [] 10
    amenitiesGridEn svc pdf d.amenities r4.2
  else r1

/-- Embedding of `addArabicDetailsContent`. -/
def addArabicDetailsContent (env : Env) (svc : Svc) (p : Property)
    (pdf : Pdf) (currentY : ℚ) : Pdf × ℚ :=
  let d := arabicDetailsData p
  let description :=
    if d.description = [] then gs "لا يوجد وصف متاح" else d.description
  let r0 :=
    if svc.hasArabicFont then
      addSectionHeaderAligned pdf d.descLabel currentY svc.arabicFontName (gs "R")
    else addSectionHeader pdf d.descLabel currentY
  let pdf :=
    if svc.hasArabicFont then r0.1.setFont svc.arabicFontName [] 12
    else r0.1.setFont (gs "Arial") [] 11
  let pdf := pdf.setXY marginX r0.2
  let description := fixMojibakeLatin1ToUTF8 description
  let pdf := pdf.multiCell env contentWidth 6 description (gs "R")
  let currentY := pdf.getY + 8
  let r1 :=
    if d.highlights ≠ [] then
      let r2 :=
        if svc.hasArabicFont then
          addSectionHeaderAligned pdf d.highlightsLabel currentY
            svc.arabicFontName (gs "R")
        else addSectionHeader pdf d.highlightsLabel currentY
      let pdf :=
        if svc.hasArabicFont then r2.1.setFont svc.arabicFontName [] 11
        else r2.1.setFont (gs "Arial") [] 11
      let r3 := highlightsLoopAr env svc pdf d.highlights r2.2
      (r3.1, r3.2 + 6)
    else (pdf, currentY)
  if d.amenities ≠ [] then
    let currentY := if 220 < r1.2 then 220 else r1.2
    let r4 :=
      if svc.hasArabicFont then
        addSectionHeaderAligned r1.1 d.amenitiesLabel currentY
          svc.arabicFontName (gs "R")
      else addSectionHeader r1.1 d.amenitiesLabel currentY
    let pdf :=
      if svc.hasArabicFont then r4.1.setFont svc.arabicFontName [] 10
      else r4.1.setFont (gs "Arial") [] 10
    amenitiesGridAr svc pdf d.amenities r4.2
  else r1

/-! ### Cover pages -/

/-- The title-lines loop of the cover pages: each line produced by
`pdf.SplitLines(title, contentWidth)` is drawn as a centred cell of height 12
with a line break. -/
def titleLinesLoop (pdf : Pdf) : List GoStr → Pdf
  | [] => pdf
  | l :: rest => titleLinesLoop (pdf.cellFormat contentWidth 12 l 1 (gs "C")) rest

/-- The hero-image block shared by both cover pages (`imageHeight := 155`,
`imageStartY := 26`): with at least one image URL, a gold border and the
aspect-fit image, degrading to a grey placeholder box with "Image Not
Available" when the fetch fails; with no images, the placeholder box with
"No Image Available". -/
def coverHeroBlock (env : Env) (p : Property) (pdf : Pdf) : Pdf :=
  let imageHeight : ℚ := 155
  let imageStartY : ℚ := 26
  match p.imageURLs with
  | url :: _ =>
    let pdf := pdf.rect (marginX - 1) (imageStartY - 1) (contentWidth + 2)
      (imageHeight + 2) (gs "D")
    let r := addImageFromURL env pdf url marginX imageStartY contentWidth imageHeight
    let pdf := r.1
    if r.2 then pdf
    else
      let pdf := pdf.rect marginX imageStartY contentWidth imageHeight (gs "F")
      let pdf := pdf.setFont (gs "Arial") (gs "I") 12
      let pdf := pdf.setXY marginX (imageStartY + imageHeight / 2)
      pdf.cellFormat contentWidth 10 (gs "Image Not Available") 0 (gs "C")
  | [] =>
    let pdf := pdf.rect marginX imageStartY contentWidth imageHeight (gs "F")
    let pdf := pdf.setFont (gs "Arial") (gs "I") 12
    let pdf := pdf.setXY marginX (imageStartY + imageHeight / 2)
    pdf.cellFormat contentWidth 10 (gs "No Image Available") 0 (gs "C")

/-- The price box and price text shared by both cover pages. -/
def coverPriceBlock (p : Property) (pdf : Pdf) : Pdf :=
  let priceBoxY := pdf.getY
  let pdf := pdf.rect (marginX + 35) (priceBoxY - 2) (contentWidth - 70) 18 (gs "F")
  let pdf := pdf.rect (marginX + 35) (priceBoxY - 2) (contentWidth - 70) 18 (gs "D")
  let pdf := pdf.setY priceBoxY
  let pdf := pdf.setFont (gs "Arial") (gs "B") 28
  let priceText := formatPrice p.price p.currency
  let pdf := pdf.cellFormat contentWidth 14 priceText 1 (gs "C")
  pdf.lnBreak 5

/-- The content of `addCoverPage` between `AddPage` and `addPageNumber`. -/
def coverContent (env : Env) (svc : Svc) (p : Property) (pdf : Pdf) : Pdf :=
  let pdf := addPageBackground pdf
  let pdf := addBrandingIfAvailable env svc pdf
  let pdf := addDecorativeCorners pdf
  let pdf := pdf.setY 10
  let pdf := pdf.setFont (gs "Arial") (gs "B") 16
  let pdf := pdf.cellFormat contentWidth 8 (gs "Property Brochure") 1 (gs "C")
  let pdf := pdf.rect (marginX + 40) 19 (contentWidth - 80) 2 (gs "F")
  let pdf := coverHeroBlock env p pdf
  let pdf := pdf.setY 186
  let pdf := pdf.setFont (gs "Arial") (gs "B") 26
  let pdf := titleLinesLoop pdf (env.splitLines p.title contentWidth)
  let pdf := pdf.lnBreak 3
  let pdf := coverPriceBlock p pdf
  let pdf := pdf.setFont (gs "Arial") [] 13
  let pdf := pdf.multiCell env contentWidth 6 (formatLocation p) (gs "C")
  let pdf := pdf.setY 268
  diamondLines pdf

/-- Embedding of `addCoverPage`. -/
def addCoverPage (env : Env) (svc : Svc) (p : Property) (pdf : Pdf) : Pdf :=
  addPageNumber (coverContent env svc p pdf.addPage) 1

/-- The content of `addCoverPageArabic` between `AddPage` and
`addPageNumber`: Arabic heading and Arabic localized title when available. -/
def coverContentArabic (env : Env) (svc : Svc) (p : Property) (pdf : Pdf) : Pdf :=
  let pdf := addPageBackground pdf
  let pdf := addBrandingIfAvailable env svc pdf
  let pdf := addDecorativeCorners pdf
  let pdf := pdf.setY 10
  let pdf :=
    if svc.hasArabicFont then pdf.setFont svc.arabicFontName [] 16
    else pdf.setFont (gs "Arial") (gs "B") 16
  let brochureLabel := fixMojibakeLatin1ToUTF8 (gs "كتيب العقار")
  let pdf := pdf.cellFormat contentWidth 8 brochureLabel 1 (gs "C")
  let pdf := pdf.rect (marginX + 40) 19 (contentWidth - 80) 2 (gs "F")
  let pdf := coverHeroBlock env p pdf
  let pdf := pdf.setY 186
  let pdf :=
    if svc.hasArabicFont then pdf.setFont svc.arabicFontName [] 24
    else pdf.setFont (gs "Arial") (gs "B") 26
  let title :=
    if p.arabicContent.title ≠ [] then fixMojibakeLatin1ToUTF8 p.arabicContent.title
    else p.title
  let pdf := titleLinesLoop pdf (env.splitLines title contentWidth)
  let pdf := pdf.lnBreak 3
  let pdf := coverPriceBlock p pdf
  let pdf := pdf.setFont (gs "Arial") [] 13
  let pdf := pdf.multiCell env contentWidth 6 (formatLocation p) (gs "C")
  let pdf := pdf.setY 268
  diamondLines pdf

/-- Embedding of `addCoverPageArabic`. -/
def addCoverPageArabic (env : Env) (svc : Svc) (p : Property) (pdf : Pdf) : Pdf :=
  addPageNumber (coverContentArabic env svc p pdf.addPage) 1

/-! ### Details page -/

/-- The content of `addDetailsPageOnly` between `AddPage` and
`addPageNumber`. -/
def detailsContent (env : Env) (svc : Svc) (p : Property) (isArabic : Bool)
    (pdf : Pdf) : Pdf :=
  let pdf := addPageBackground pdf
  let pdf := addBrandingIfAvailable env svc pdf
  let currentY := marginY + 10
  let r :=
    if isArabic then addArabicDetailsContent env svc p pdf currentY
    else addEnglishDetailsContent env svc p pdf currentY
  addBottomDiamondDecoration r.1

/-- Embedding of `addDetailsPageOnly`. -/
def addDetailsPageOnly (env : Env) (svc : Svc) (p : Property) (pdf : Pdf)
    (isArabic : Bool) : Pdf :=
  addPageNumber (detailsContent env svc p isArabic pdf.addPage) 2

/-! ### Investment and gallery page -/

/-- Gallery image cell width (`imgWidth := (contentWidth - 8) / 2`). -/
def galleryImgWidth : ℚ := (contentWidth - 8) / 2

/-- Gallery image cell height (`imgHeight := imgWidth * 0.65`). -/
def galleryImgHeight : ℚ := galleryImgWidth * 0.65

/-- Gallery cell spacing (`spacing := 8.0`). -/
def gallerySpacing : ℚ := 8

/-- The gallery loop of `addInvestmentAndGalleryPage`: up to 4 additional
images (`maxImages := 4`) in a 2×2 grid; the loop breaks when a cell would
cross the near-bottom boundary `pageHeight - 35`; a failed placement degrades
to a grey placeholder rectangle and the loop continues. -/
def galleryLoop (env : Env) (pdf : Pdf) :
    List GoStr → Nat → ℚ → Pdf
  | [], _, _ => pdf
  | url :: rest, imageCount, currentY =>
    if imageCount < 4 then
      let row := imageCount / 2
      let col := imageCount % 2
      let xPos := marginX + (col : ℚ) * (galleryImgWidth + gallerySpacing)
      let yPos := currentY + (row : ℚ) * (galleryImgHeight + gallerySpacing)
      if pageHeight - 35 < yPos + galleryImgHeight then pdf
      else
        let pdf := pdf.rect (xPos + 1.5) (yPos + 1.5) galleryImgWidth
          galleryImgHeight (gs "F")
        let pdf := pdf.rect xPos yPos galleryImgWidth galleryImgHeight (gs "F")
        let pdf := pdf.rect xPos yPos galleryImgWidth galleryImgHeight (gs "D")
        let r := addImageFromURL env pdf url (xPos + 2) (yPos + 2)
          (galleryImgWidth - 4) (galleryImgHeight - 4)
        let pdf :=
          if r.2 then r.1
          else r.1.rect (xPos + 2) (yPos + 2) (galleryImgWidth - 4)
            (galleryImgHeight - 4) (gs "F")
        galleryLoop env pdf rest (imageCount + 1) currentY
    else pdf

/-- The content of `addInvestmentAndGalleryPage` between `AddPage` and
`addPageNumber`. -/
def investmentContent (env : Env) (svc : Svc) (p : Property) (isArabic : Bool)
    (pdf : Pdf) : Pdf :=
  let pdf := addPageBackground pdf
  let pdf := addBrandingIfAvailable env svc pdf
  let currentY := marginY + 10
  let additional :=
    if isArabic then
      let t :=
        if p.arabicContent.additionalSectionTitle ≠ [] then
          (p.arabicContent.additionalSectionTitle,
            p.arabicContent.additionalSectionContent)
        else (gs "فرصة استثمارية", gs "يمثل هذا العقار فرصة استثمارية ممتازة.")
      (fixMojibakeLatin1ToUTF8 t.1, fixMojibakeLatin1ToUTF8 t.2)
    else
      if p.englishContent.additionalSectionTitle ≠ [] then
        (p.englishContent.additionalSectionTitle,
          p.englishContent.additionalSectionContent)
      else
        (gs "Investment Opportunity",
          gs "This property represents an excellent investment opportunity.")
  let r :=
    if additional.2 ≠ [] then
      let r1 :=
        if isArabic ∧ svc.hasArabicFont then
          let r2 := addSectionHeaderAligned pdf additional.1 currentY
            svc.arabicFontName (gs "R")
          (r2.1.setFont svc.arabicFontName [] 11, r2.2)
        else
          let r2 := addSectionHeaderWithIcon pdf additional.1 currentY
            (gs "investment")
          (if svc.hasBodyFont then r2.1.setFont svc.bodyFontName [] 11
            else r2.1.setFont (gs "Arial") [] 11, r2.2)
      let pdf := r1.1.setXY marginX r1.2
      let align := if isArabic then gs "R" else gs "L"
      let pdf := pdf.multiCell env contentWidth 5.5 additional.2 align
      (pdf, pdf.getY + 12)
    else (pdf, currentY)
  let pdf := r.1
  let currentY := r.2
  if 1 < p.imageURLs.length then
    let galleryLabel :=
      if isArabic then
        fixMojibakeLatin1ToUTF8
          (if p.arabicContent.propertyGalleryLabel ≠ [] then
            p.arabicContent.propertyGalleryLabel
          else gs "معرض العقار")
      else
        if p.englishContent.propertyGalleryLabel ≠ [] then
          p.englishContent.propertyGalleryLabel
        else gs "Property Gallery"
    let r3 :=
      if isArabic ∧ svc.hasArabicFont then
        addSectionHeaderAligned pdf galleryLabel currentY svc.arabicFontName (gs "R")
      else addSectionHeaderWithIcon pdf galleryLabel currentY (gs "gallery")
    let currentY := r3.2 + 3
    galleryLoop env r3.1 (p.imageURLs.drop 1) 0 currentY
  else pdf

/-- Embedding of `addInvestmentAndGalleryPage`. -/
def addInvestmentAndGalleryPage (env : Env) (svc : Svc) (p : Property)
    (pdf : Pdf) (isArabic : Bool) : Pdf :=
  addPageNumber (investmentContent env svc p isArabic pdf.addPage) 3

/-! ### Contact page -/

/-- Embedding of `addAgentContactCardTop`: shadowed white card with gold
border, language-dependent labels (falling back to English labels when the
localized agent label is empty), and the agent name/email/phone rows;
returns `startY + cardHeight`. -/
def addAgentContactCardTop (svc : Svc) (p : Property) (pdf : Pdf)
    (startY : ℚ) (useArabic : Bool) : Pdf × ℚ :=
  let cardHeight : ℚ := 55
  let pdf := pdf.rect (marginX + 2) (startY + 2) contentWidth cardHeight (gs "F")
  let pdf := pdf.rect marginX startY contentWidth cardHeight (gs "F")
  let pdf := pdf.rect marginX startY contentWidth cardHeight (gs "D")
  let labels :=
    if useArabic ∧ p.arabicContent.agentLabel ≠ [] then
      (p.arabicContent.agentLabel, gs "الاسم:", gs "البريد الإلكتروني:",
        gs "الهاتف:", gs "R")
    else if (!useArabic) ∧ p.englishContent.agentLabel ≠ [] then
      (p.englishContent.agentLabel, gs "Name:", gs "Email:", gs "Phone:", gs "C")
    else
      (gs "Contact Your Agent", gs "Name:", gs "Email:", gs "Phone:", gs "C")
  let pdf := pdf.setXY (marginX + 5) (startY + 5)
  let pdf :=
    if useArabic ∧ svc.hasArabicFont then pdf.setFont svc.arabicFontName [] 14
    else pdf.setFont (gs "Arial") (gs "B") 14
  let pdf := pdf.cellFormat (contentWidth - 10) 8
    (fixMojibakeLatin1ToUTF8 labels.1) 1 labels.2.2.2.2
  let pdf := pdf.line (marginX + 30) (startY + 13) (pageWidth - marginX - 30)
    (startY + 13)
  let pdf :=
    if useArabic ∧ svc.hasArabicFont then pdf.setFont svc.arabicFontName [] 11
    else pdf.setFont (gs "Arial") (gs "B") 11
  let pdf := pdf.setXY (marginX + 10) (startY + 18)
  let pdf := pdf.cellFormat 50 6 (fixMojibakeLatin1ToUTF8 labels.2.1) 0 []
  let pdf :=
    if svc.hasBodyFont ∧ (!useArabic) then pdf.setFont svc.bodyFontName [] 11
    else if useArabic ∧ svc.hasArabicFont then pdf.setFont svc.arabicFontName [] 11
    else pdf.setFont (gs "Arial") [] 11
  let pdf := pdf.cellFormat 0 6 p.agentInfo.name 0 []
  let pdf :=
    if useArabic ∧ svc.hasArabicFont then pdf.setFont svc.arabicFontName [] 11
    else pdf.setFont (gs "Arial") (gs "B") 11
  let pdf := pdf.setXY (marginX + 10) (startY + 28)
  let pdf := pdf.cellFormat 50 6 (fixMojibakeLatin1ToUTF8 labels.2.2.1) 0 []
  let pdf := pdf.setFont (gs "Arial") [] 11
  let pdf := pdf.cellFormat 0 6 p.agentInfo.email 0 []
  let pdf :=
    if useArabic ∧ svc.hasArabicFont then pdf.setFont svc.arabicFontName [] 11
    else pdf.setFont (gs "Arial") (gs "B") 11
  let pdf := pdf.setXY (marginX + 10) (startY + 38)
  let pdf := pdf.cellFormat 50 6 (fixMojibakeLatin1ToUTF8 labels.2.2.2.1) 0 []
  let pdf := pdf.setFont (gs "Arial") [] 11
  let pdf := pdf.cellFormat 0 6 p.agentInfo.phone 0 []
  (pdf, startY + cardHeight)

/-- Embedding of `addThankYouMessage`: localized message when non-empty,
otherwise a fixed fallback in the page language; a short gold divider, then
the message as a `MultiCell` after the mojibake fix. -/
def addThankYouMessage (env : Env) (svc : Svc) (p : Property) (pdf : Pdf)
    (startY : ℚ) (useArabic : Bool) : Pdf :=
  let msg :=
    if useArabic ∧ p.arabicContent.thankYouMessage ≠ [] then
      (p.arabicContent.thankYouMessage, gs "R")
    else if (!useArabic) ∧ p.englishContent.thankYouMessage ≠ [] then
      (p.englishContent.thankYouMessage, gs "L")
    else if useArabic then
      (gs "نشكركم على اهتمامكم بهذا العقار الاستثنائي. نحن نقدر اهتمامكم ويسعدنا تزويدكم بمعلومات إضافية أو ترتيب موعد للمعاينة في الوقت المناسب لكم.",
        gs "R")
    else
      (gs "Thank you for considering this exceptional property. We appreciate your interest and would be delighted to provide you with additional information or arrange a viewing at your convenience.",
        gs "L")
  let pdf := pdf.setY startY
  let pdf := pdf.line (marginX + contentWidth / 2 - 30) startY
    (marginX + contentWidth / 2 + 30) startY
  let startY := startY + 10
  let pdf :=
    if useArabic ∧ svc.hasArabicFont then pdf.setFont svc.arabicFontName [] 12
    else if svc.hasBodyFont then pdf.setFont svc.bodyFontName [] 11
    else pdf.setFont (gs "Arial") [] 11
  let pdf := pdf.setXY marginX startY
  pdf.multiCell env contentWidth 6 (fixMojibakeLatin1ToUTF8 msg.1) msg.2

/-- The content of `addContactPageWithLanguage` between `AddPage` and
`addPageNumber`. -/
def contactContent (env : Env) (svc : Svc) (p : Property) (useArabic : Bool)
    (pdf : Pdf) : Pdf :=
  let pdf := addPageBackground pdf
  let pdf := addBrandingIfAvailable env svc pdf
  let currentY := marginY + 10
  let r := addAgentContactCardTop svc p pdf currentY useArabic
  let currentY := r.2 + 15
  let pdf := addThankYouMessage env svc p r.1 currentY useArabic
  addBottomDiamondDecoration pdf

/-- Embedding of `addContactPageWithLanguage`. -/
def addContactPageWithLanguage (env : Env) (svc : Svc) (p : Property)
    (pdf : Pdf) (useArabic : Bool) : Pdf :=
  addPageNumber (contactContent env svc p useArabic pdf.addPage) 4

/-- Embedding of `addContactPage`. -/
def addContactPage (env : Env) (svc : Svc) (p : Property) (pdf : Pdf) : Pdf :=
  addContactPageWithLanguage env svc p pdf false

/-- The content of `addArabicAndContactPage` (the fourth page of the combined
brochure) between `AddPage` and `addPageNumber`: Arabic legacy description
section, then the agent card and thank-you message. -/
def arabicContactContent (env : Env) (svc : Svc) (p : Property) (pdf : Pdf) : Pdf :=
  let pdf := addPageBackground pdf
  let pdf := addBrandingIfAvailable env svc pdf
  let currentY := marginY + 10
  let r :=
    if svc.hasArabicFont then
      addSectionHeaderAligned pdf (gs "وصف العقار") currentY svc.arabicFontName (gs "R")
    else addSectionHeader pdf (gs "Arabic Description") currentY
  let pdf :=
    if svc.hasArabicFont then r.1.setFont svc.arabicFontName [] 12
    else if svc.hasBodyFont then r.1.setFont svc.bodyFontName [] 11
    else r.1.setFont (gs "Arial") [] 11
  let pdf := pdf.setXY marginX r.2
  let arabicDesc :=
    if p.aiContent.arabicDescription = [] then gs "لا يوجد وصف متاح"
    else p.aiContent.arabicDescription
  let pdf := pdf.multiCell env contentWidth 6
    (fixMojibakeLatin1ToUTF8 arabicDesc) (gs "R")
  let currentY := pdf.getY + 15
  let r2 := addAgentContactCardTop svc p pdf currentY false
  let currentY := r2.2 + 15
  let pdf := addThankYouMessage env svc p r2.1 currentY false
  addBottomDiamondDecoration pdf

/-- Embedding of `addArabicAndContactPage`. -/
def addArabicAndContactPage (env : Env) (svc : Svc) (p : Property)
    (pdf : Pdf) : Pdf :=
  addPageNumber (arabicContactContent env svc p pdf.addPage) 4

/-! ### Brochure generation -/

/-- Modelled from the spec: the final serialization performed by the external
gofpdf `Output` call (the gofpdf library is not part of this repository).
Spec §7: "PDF serialization failure at the very end of the pipeline (e.g.,
underlying encoder error) is the only condition that should cause the whole
generation call to fail".  The environment carries the encoder verdict; on
success the document serializes to a byte stream starting with the `%PDF`
header, hence non-empty. -/
def pdfOutput (env : Env) (pdf : Pdf) : Except GoStr (List Nat) :=
  match env.outputError with
  | some e => .error e
  | none => .ok (gs "%PDF-" ++ natDigits pdf.ops.length)

/-- The document composed by `GenerateBrochure` (combined bilingual layout). -/
def composeBrochure (env : Env) (p : Property) : Pdf :=
  let svc := mkSvc env
  let pdf : Pdf := { ops := [], y := 0 }
  let pdf := addCoverPage env svc p pdf
  let pdf := addDetailsPageOnly env svc p pdf false
  let pdf := addInvestmentAndGalleryPage env svc p pdf false
  addArabicAndContactPage env svc p pdf

/-- The document composed by `GenerateEnglishBrochure`. -/
def composeEnglish (env : Env) (p : Property) : Pdf :=
  let svc := mkSvc env
  let pdf : Pdf := { ops := [], y := 0 }
  let pdf := addCoverPage env svc p pdf
  let pdf := addDetailsPageOnly env svc p pdf false
  let pdf := addInvestmentAndGalleryPage env svc p pdf false
  addContactPage env svc p pdf

/-- The document composed by `GenerateArabicBrochure`. -/
def composeArabic (env : Env) (p : Property) : Pdf :=
  let svc := mkSvc env
  let pdf : Pdf := { ops := [], y := 0 }
  let pdf := addCoverPageArabic env svc p pdf
  let pdf := addDetailsPageOnly env svc p pdf true
  let pdf := addInvestmentAndGalleryPage env svc p pdf true
  addContactPageWithLanguage env svc p pdf true

/-- Embedding of `GenerateBrochure`: compose the four pages, then serialize;
only a serialization failure is propagated (wrapped). -/
def GenerateBrochure (env : Env) (p : Property) : Except GoStr (List Nat) :=
  match pdfOutput env (composeBrochure env p) with
  | .error e => .error (gs "failed to generate PDF: " ++ e)
  | .ok b => .ok b

/-- Embedding of `GenerateEnglishBrochure`. -/
def GenerateEnglishBrochure (env : Env) (p : Property) :
    Except GoStr (List Nat) :=
  match pdfOutput env (composeEnglish env p) with
  | .error e => .error (gs "failed to generate English PDF: " ++ e)
  | .ok b => .ok b

/-- Embedding of `GenerateArabicBrochure`. -/
def GenerateArabicBrochure (env : Env) (p : Property) :
    Except GoStr (List Nat) :=
  match pdfOutput env (composeArabic env p) with
  | .error e => .error (gs "failed to generate Arabic PDF: " ++ e)
  | .ok b => .ok b

/-! ### Auxiliary notions used by the theorems -/

/-- Number of odd indices among `i, i+1, …, i+n-1`: how many times the
amenities-grid loop starting at index `i` advances the row cursor over `n`
items. -/
def countOdd : Nat → Nat → Nat
  | _, 0 => 0
  | i, n + 1 => (if i % 2 = 1 then 1 else 0) + countOdd (i + 1) n

/-- One step of the trace only appends operations and never starts a page. -/
def ExtendsNP (p q : Pdf) : Prop :=
  ∃ d, q.ops = p.ops ++ d ∧ Op.addPage ∉ d

/-- Worker for `splitPages`: `cur` is the current page collected in reverse;
each `addPage` closes the current group and starts a new one. -/
def splitPagesGo (cur : List Op) : List Op → List (List Op)
  | [] => [cur.reverse]
  | .addPage :: rest => cur.reverse :: splitPagesGo [] rest
  | o :: rest => splitPagesGo (o :: cur) rest

/-- Split a trace into one operation list per page (everything between one
`addPage` and the next); operations before the first page are discarded. -/
def splitPages (ops : List Op) : List (List Op) :=
  match splitPagesGo [] ops with
  | _ :: pages => pages
  | [] => []

/-- A concrete environment: no font files, no branding, every fetch fails,
single-line splitting, one line of height `h` per `MultiCell`, and a
successful encoder. -/
def envNoAssets : Env :=
  { hasArabicFontFile := false
    hasBodyFontFile := false
    brandLogoURL := []
    fetch := fun _ => .httpError
    splitLines := fun t _ => [t]
    multiCellEndY := fun _ h _ y => y + h
    outputError := none }

/-- The same environment with a failing encoder. -/
def envFailingOutput : Env :=
  { envNoAssets with outputError := some (gs "encoder error") }

/-- The same environment with a branding logo whose bytes download but do not
decode (so it is placed filling its box). -/
def envLogo : Env :=
  { envNoAssets with brandLogoURL := gs "logo.png", fetch := fun _ => .decodeError }

/-- Localized content with every field empty. -/
def emptyLocalized : LocalizedContent :=
  ⟨[], [], [], [], [], [], [], [], [], [], [], [], [], [], [], [], []⟩

/-- A minimal property record with no images and no localized content. -/
def pEmpty : Property :=
  { title := gs "Villa"
    description := []
    price := 550000
    currency := []
    address := []
    city := []
    state := []
    zipCode := []
    amenities := []
    imageURLs := []
    agentInfo := ⟨[], [], []⟩
    aiContent := ⟨[], [], []⟩
    englishContent := emptyLocalized
    arabicContent := emptyLocalized }

/-- A property whose localized English description is non-empty while all its
localized labels are empty. -/
def pEmptyLabels : Property :=
  { pEmpty with
    englishContent := { emptyLocalized with description := gs "A fine home" } }

/-- A property with localized content in both languages (labels set). -/
def pLocalized : Property :=
  { pEmpty with
    englishContent :=
      { emptyLocalized with
        description := gs "A fine home"
        propertyDescriptionLabel := gs "About"
        keyHighlightsLabel := gs "Highlights"
        amenitiesLabel := gs "Amenities" }
    arabicContent :=
      { emptyLocalized with
        description := gs "وصف"
        propertyDescriptionLabel := gs "حول"
        keyHighlightsLabel := gs "مميزات"
        amenitiesLabel := gs "مرافق" } }

/-- A property with one image URL. -/
def pOneImage : Property := { pEmpty with imageURLs := [gs "hero.jpg"] }

/-- The text drawn by an operation, if any (`CellFormat` / `MultiCell`). -/
def cellText : Op → Option GoStr
  | .cell _ _ txt _ _ => some txt
  | .multiCellOp _ _ txt _ => some txt
  | _ => none

/-- Does the trace draw the text `t` in some cell? -/
def drawsText (ops : List Op) (t : GoStr) : Bool :=
  ops.any (fun op => cellText op = some t)

/-- The branding-logo placement operation emitted on every page under
`envLogo`: `addBrandingIfAvailable` always requests the same box
`(pageWidth - marginX - 18, 6, 18, 18)`, so every page registers the logo
under this one identifier. -/
def logoOp : Op :=
  .image (uniqueImageName (gs "logo.png") (pageWidth - marginX - 18) 6)
    (pageWidth - marginX - 18) 6 18 18

/-- The numeric value of a decimal digit string (used to invert
`natDigits`). -/
def digitsVal (l : GoStr) : Nat :=
  l.foldl (fun acc c => acc * 10 + (c - 0x30)) 0

/-!
## Theorems

### C1 — the mojibake repair
-/

/-- Claim C1 (code bug): for the Arabic string `a = "طé"` (codepoints
`[0x637, 0xE9]`), its mojibake form `m` — the UTF-8 bytes of `a` re-decoded
as Latin-1 — contains the marker `Ã` (0xC3) and no Arabic codepoint, and the
repair described by the spec (re-encode as Latin-1 bytes, re-decode as UTF-8)
recovers `a` from `m`; but `fixMojibakeLatin1ToUTF8 m ≠ a`: the code runs the
ISO 8859-1 *decoder* over the UTF-8 bytes of `m`, which mis-decodes one level
further instead of repairing, and its output on this branch contains no
Arabic codepoint at all — contradicting the function's stated purpose. -/
theorem fixMojibake_wrong_direction_on_arabic_mojibake :
    utf8Encode [0x637, 0xE9] = latin1Decode [0xD8, 0xB7, 0xC3, 0xA9] ∧
    (latin1Decode [0xD8, 0xB7, 0xC3, 0xA9]).contains 0xC3 = true ∧
    (latin1Decode [0xD8, 0xB7, 0xC3, 0xA9]).any isArabicCp = false ∧
    repairMojibakeSpec (latin1Decode [0xD8, 0xB7, 0xC3, 0xA9]) = [0x637, 0xE9] ∧
    fixMojibakeLatin1ToUTF8 (latin1Decode [0xD8, 0xB7, 0xC3, 0xA9]) ≠ [0x637, 0xE9] ∧
    (fixMojibakeLatin1ToUTF8 (latin1Decode [0xD8, 0xB7, 0xC3, 0xA9])).any isArabicCp
      = false := by
  decide

/-! ### C2 — the bullet sanitizer -/

theorem dropWhile_self_idem (q : Nat → Bool) (l : GoStr) :
    (l.dropWhile q).dropWhile q = l.dropWhile q := by
  induction l with
  | nil => rfl
  | cons x xs ih =>
    by_cases h : q x
    · simpa [List.dropWhile_cons, h] using ih
    · simp [List.dropWhile_cons, h]

theorem dropWhile_eq_drop (q : Nat → Bool) (l : GoStr) :
    ∃ n, l.dropWhile q = l.drop n := by
  induction l with
  | nil => exact ⟨0, rfl⟩
  | cons x xs ih =>
    by_cases h : q x
    · obtain ⟨n, hn⟩ := ih
      exact ⟨n + 1, by simpa [List.dropWhile_cons, h] using hn⟩
    · exact ⟨0, by simp [List.dropWhile_cons, h]⟩

theorem dropWhile_length_le (q : Nat → Bool) (l : GoStr) :
    (l.dropWhile q).length ≤ l.length := by
  induction l with
  | nil => simp
  | cons x xs ih =>
    by_cases h : q x <;> simp [List.dropWhile_cons, h] <;> omega

theorem dropWhile_take_of_dropWhile_self (q : Nat → Bool) (l : GoStr)
    (h : l.dropWhile q = l) (k : Nat) :
    (l.take k).dropWhile q = l.take k := by
  cases l with
  | nil => simp
  | cons x xs =>
    have hx : q x = false := by
      by_contra hq
      have hq' : q x = true := by revert hq; cases q x <;> simp
      rw [List.dropWhile_cons, hq', if_pos rfl] at h
      have hlen := dropWhile_length_le q xs
      rw [h] at hlen
      simp at hlen
    cases k with
    | zero => simp
    | succ k => simp [List.dropWhile_cons, hx]

theorem trimSpace_idem (s : GoStr) : trimSpace (trimSpace s) = trimSpace s := by
  unfold trimSpace
  set a := s.dropWhile goIsSpace with ha
  obtain ⟨n, hn⟩ := dropWhile_eq_drop goIsSpace a.reverse
  have hlead : a.dropWhile goIsSpace = a := by
    rw [ha]; exact dropWhile_self_idem goIsSpace s
  have hB : ((a.reverse.dropWhile goIsSpace).reverse).dropWhile goIsSpace
      = (a.reverse.dropWhile goIsSpace).reverse := by
    rw [hn, List.reverse_drop, List.reverse_reverse, List.length_reverse]
    exact dropWhile_take_of_dropWhile_self goIsSpace a hlead _
  rw [hB, List.reverse_reverse, dropWhile_self_idem]

theorem stripBulletLoop_of_no_match (x : GoStr) (l : List GoStr)
    (h : ∀ q ∈ l, q.isPrefixOf x = false) : stripBulletLoop x l = x := by
  induction l with
  | nil => rfl
  | cons q qs ih =>
    have hq : q.isPrefixOf x = false := h q (by simp)
    have hq1 : (q ++ [0x20]).isPrefixOf x = false := by
      by_contra hc
      have hc' : (q ++ [0x20]).isPrefixOf x = true := by
        revert hc; cases (q ++ [0x20]).isPrefixOf x <;> simp
      have hpre : (q ++ [0x20]) <+: x := List.isPrefixOf_iff_prefix.mp hc'
      have : q <+: x := List.IsPrefix.trans ⟨[0x20], rfl⟩ hpre
      rw [← List.isPrefixOf_iff_prefix] at this
      rw [hq] at this
      exact Bool.false_ne_true this
    simp only [stripBulletLoop, hq, hq1, Bool.false_eq_true, if_false]
    exact ih fun q hq => h q (by simp [hq])

theorem stripBulletLoop_trimmed (l : List GoStr) (x : GoStr)
    (hx : trimSpace x = x) :
    trimSpace (stripBulletLoop x l) = stripBulletLoop x l := by
  induction l with
  | nil => exact hx
  | cons q qs ih =>
    simp only [stripBulletLoop]
    by_cases h1 : (q ++ [0x20]).isPrefixOf x
    · simp only [h1, if_true]
      exact trimSpace_idem _
    · simp only [h1, if_false]
      by_cases h2 : q.isPrefixOf x
      · simp only [h2, if_true]
        exact trimSpace_idem _
      · simp only [h2, if_false]
        exact ih

theorem sanitize_result_trimmed (t : GoStr) :
    trimSpace (sanitizeBulletText t) = sanitizeBulletText t :=
  stripBulletLoop_trimmed badPrefixes (trimSpace t) (trimSpace_idem t)

/-- Claim C2 (counterexample): `sanitizeBulletText` is not idempotent.  It
strips at most one bullet prefix per application, so on `"• • Spacious
layout"` the first application yields `"• Spacious layout"` and the second
strips again. -/
theorem sanitizeBulletText_not_idempotent_double_bullet :
    sanitizeBulletText (sanitizeBulletText (gs "• • Spacious layout")) ≠
      sanitizeBulletText (gs "• • Spacious layout") := by
  decide

/-- Claim C2 (amended): `sanitizeBulletText` removes at most one leading
bullet token, so it is idempotent exactly on those inputs whose sanitized
form does not itself start with another listed prefix; in particular (see the
witness) `sanitizeBulletText "• Spacious layout" = "Spacious layout"` and a
second application is a no-op. -/
theorem sanitizeBulletText_idempotent_of_clean_result (t : GoStr)
    (h : ∀ q ∈ badPrefixes, q.isPrefixOf (sanitizeBulletText t) = false) :
    sanitizeBulletText (sanitizeBulletText t) = sanitizeBulletText t := by
  show stripBulletLoop (trimSpace (sanitizeBulletText t)) badPrefixes = _
  rw [sanitize_result_trimmed]
  exact stripBulletLoop_of_no_match _ _ h

/-- Witness for C2: the spec's own example satisfies the hypothesis. -/
theorem sanitizeBulletText_idempotent_witness :
    (∀ q ∈ badPrefixes,
      q.isPrefixOf (sanitizeBulletText (gs "• Spacious layout")) = false) ∧
    sanitizeBulletText (sanitizeBulletText (gs "• Spacious layout")) =
      sanitizeBulletText (gs "• Spacious layout") ∧
    sanitizeBulletText (gs "• Spacious layout") = gs "Spacious layout" :=
  ⟨by decide,
    sanitizeBulletText_idempotent_of_clean_result (gs "• Spacious layout")
      (by decide),
    by decide⟩

/-! ### C4 — aspect fit -/

/-- Claim C4: with positive intrinsic dimensions `W × H`, the placement
computed by `addImageFromURL` for the box `(x, y, w, h)` is the rectangle
`W*s × H*s` with `s = min (w/W) (h/H)`, top-left corner
`(x + (w − W*s)/2, y + (h − H*s)/2)`; consequently the drawn aspect ratio
equals the source ratio (stated cross-multiplied) and the leftover margin is
the same on both sides of each axis. -/
theorem aspectFit_min_scale_centered (x y w h W H : ℚ)
    (hW : 0 < W) (hH : 0 < H) :
    aspectFit x y w h W H =
      { x := x + (w - W * min (w / W) (h / H)) / 2
        y := y + (h - H * min (w / W) (h / H)) / 2
        w := W * min (w / W) (h / H)
        h := H * min (w / W) (h / H) } ∧
    (aspectFit x y w h W H).w * H = (aspectFit x y w h W H).h * W ∧
    (aspectFit x y w h W H).x - x =
      (x + w) - ((aspectFit x y w h W H).x + (aspectFit x y w h W H).w) ∧
    (aspectFit x y w h W H).y - y =
      (y + h) - ((aspectFit x y w h W H).y + (aspectFit x y w h W H).h) := by
  have hkey : H * (w / W) * W = w * H := by
    field_simp
    ring
  have hmin : (if h < H * (w / W) then h / H else w / W) = min (w / W) (h / H) := by
    by_cases hc : h < H * (w / W)
    · rw [if_pos hc]
      have hlt : h / H < w / W := by
        rw [div_lt_div_iff₀ hH hW]
        calc h * W < H * (w / W) * W := mul_lt_mul_of_pos_right hc hW
          _ = w * H := hkey
      exact (min_eq_right hlt.le).symm
    · rw [if_neg hc]
      push_neg at hc
      have hle : w / W ≤ h / H := by
        rw [div_le_div_iff₀ hW hH]
        calc w * H = H * (w / W) * W := hkey.symm
          _ ≤ h * W := mul_le_mul_of_nonneg_right hc hW.le
      exact (min_eq_left hle).symm
  refine ⟨?_, ?_, ?_, ?_⟩
  · simp only [aspectFit, hmin]
  · simp only [aspectFit]
    ring
  · simp only [aspectFit]
    ring
  · simp only [aspectFit]
    ring

/-- Witness for C4: the spec's 1200×800 image in a 170×100 box scales by
`1/8` to a 150×100 rectangle at offset `(10, 0)`, ratio preserved. -/
theorem aspectFit_witness :
    (0:ℚ) < 1200 ∧ (0:ℚ) < 800 ∧
    aspectFit 0 0 170 100 1200 800 =
      { x := 10, y := 0, w := 150, h := 100 } ∧
    (aspectFit 0 0 170 100 1200 800).w * 800 =
      (aspectFit 0 0 170 100 1200 800).h * 1200 := by
  have h := aspectFit_min_scale_centered 0 0 170 100 1200 800
    (by norm_num) (by norm_num)
  refine ⟨by norm_num, by norm_num, ?_, h.2.1⟩
  rw [h.1]
  have hm : min ((170:ℚ) / 1200) (100 / 800) = 1/8 := by
    rw [min_def]
    norm_num
  rw [hm]
  norm_num

/-! ### C8 and C10 — price formatting -/

theorem sepLoop_append (n : Nat) (xs ys : GoStr) (i : Nat) :
    sepLoop n i (xs ++ ys) = sepLoop n i xs ++ sepLoop n (i + xs.length) ys := by
  induction xs generalizing i with
  | nil => simp [sepLoop]
  | cons d rest ih =>
    have hidx : i + 1 + rest.length = i + (rest.length + 1) := by omega
    simp [sepLoop, ih (i + 1), List.append_assoc, hidx]

theorem sepLoop_shift (xs : GoStr) (n i : Nat) (h : i + xs.length + 3 ≤ n) :
    sepLoop n i xs = sepLoop (n - 3) i xs := by
  induction xs generalizing i with
  | nil => rfl
  | cons d rest ih =>
    simp only [List.length_cons] at h
    have hcond : (0 < i ∧ (n - i) % 3 = 0) ↔ (0 < i ∧ (n - 3 - i) % 3 = 0) := by
      constructor

      · rintro ⟨h1, h2⟩
        exact ⟨h1, by omega⟩
      · rintro ⟨h1, h2⟩
        exact ⟨h1, by omega⟩
    simp only [sepLoop]
    rw [ih (i + 1) (by omega)]
    by_cases h1 : 0 < i ∧ (n - i) % 3 = 0
    · rw [if_pos h1, if_pos (hcond.mp h1)]
    · rw [if_neg h1, if_neg (fun hc => h1 (hcond.mpr hc))]

theorem sepLoop_short (xs : GoStr) (h : xs.length ≤ 3) :
    sepLoop xs.length 0 xs = xs := by
  match xs, h with
  | [], _ => rfl
  | [a], _ => rfl
  | [a, b], _ => rfl
  | [a, b, c], _ => rfl

theorem sepLoop_last3 (a b c : Nat) (n : Nat) (h : 3 < n) :
    sepLoop n (n - 3) [a, b, c] = [0x2C, a, b, c] := by
  have e1 : n - 3 + 1 = n - 2 := by omega
  have e2 : n - 2 + 1 = n - 1 := by omega
  have h1 : 0 < n - 3 ∧ (n - (n - 3)) % 3 = 0 := ⟨by omega, by omega⟩
  have h2 : ¬(0 < n - 2 ∧ (n - (n - 2)) % 3 = 0) := by omega
  have h3 : ¬(0 < n - 1 ∧ (n - (n - 1)) % 3 = 0) := by omega
  simp only [sepLoop, e1, e2]
  rw [if_pos h1, if_neg h2, if_neg h3]
  rfl

/-- The separator loop of `formatPrice` (run only on digit strings longer
than 3) computes exactly the spec's right-to-left three-digit grouping. -/
theorem sepLoop_eq_groupThousandsSpec (l : GoStr) :
    (if 3 < l.length then sepLoop l.length 0 l else l) = groupThousandsSpec l := by
  suffices H : ∀ n (l : GoStr), l.length = n →
      (if 3 < l.length then sepLoop l.length 0 l else l) = groupThousandsSpec l by
    exact H l.length l rfl
  intro n
  induction n using Nat.strong_induction_on with
  | _ n ih =>
  intro l hn
  subst hn
  by_cases h : l.length ≤ 3
  · rw [if_neg (by omega)]
    unfold groupThousandsSpec
    rw [dif_pos h]
  · push_neg at h
    rw [if_pos h]
    unfold groupThousandsSpec
    rw [dif_neg (by omega)]
    have hsplit := List.take_append_drop (l.length - 3) l
    have hlt : (l.take (l.length - 3)).length = l.length - 3 := by
      simp only [List.length_take]
      omega
    have hld : (l.drop (l.length - 3)).length = 3 := by
      simp only [List.length_drop]
      omega
    obtain ⟨a, b, c, habc⟩ := List.length_eq_three.mp hld
    have hstep : sepLoop l.length 0 l =
        sepLoop l.length 0 (l.take (l.length - 3)) ++
          sepLoop l.length (0 + (l.take (l.length - 3)).length)
            (l.drop (l.length - 3)) := by
      rw [← sepLoop_append, hsplit]
    rw [hstep, hlt, habc, Nat.zero_add, sepLoop_last3 a b c l.length h]
    have hshift : sepLoop l.length 0 (l.take (l.length - 3)) =
        sepLoop (l.length - 3) 0 (l.take (l.length - 3)) := by
      apply sepLoop_shift
      omega
    rw [hshift]
    have hrec : sepLoop (l.length - 3) 0 (l.take (l.length - 3)) =
        groupThousandsSpec (l.take (l.length - 3)) := by
      have hih := ih (l.length - 3) (by omega) (l.take (l.length - 3)) hlt
      by_cases h3 : 3 < l.length - 3
      · rw [if_pos (by omega : 3 < (l.take (l.length - 3)).length)] at hih
        rw [← hih, hlt]
      · rw [if_neg (by omega : ¬3 < (l.take (l.length - 3)).length)] at hih
        rw [← hih]
        have hshort := sepLoop_short (l.take (l.length - 3)) (by omega)
        rw [hlt] at hshort
        exact hshort
    rw [hrec]
    simp

theorem goRound_nonneg (q : ℚ) (hq : 0 ≤ q) : 0 ≤ goRound q := by
  have hnum : 0 ≤ q.num := Rat.num_nonneg.mpr hq
  have hden : (0:Int) ≤ (q.den : Int) := by positivity
  have hfl : 0 ≤ Int.fdiv q.num (q.den : Int) := Int.fdiv_nonneg hnum hden
  simp only [goRound]
  split_ifs <;> omega

/-- Claim C8: for a non-negative amount and non-empty currency,
`formatPrice` is the currency code, one space, and the rounded amount's
digits grouped with a comma every three digits from the least-significant
digit. -/
theorem formatPrice_spec (q : ℚ) (c : GoStr) (hq : 0 ≤ q) (hc : c ≠ []) :
    formatPrice q c =
      c ++ [0x20] ++ groupThousandsSpec (natDigits (goRound q).natAbs) ∧
    0 ≤ goRound q := by
  refine ⟨?_, goRound_nonneg q hq⟩
  have h1 : intToGoStr (goRound q) = natDigits (goRound q).natAbs := by
    unfold intToGoStr
    rw [if_neg (not_lt.mpr (goRound_nonneg q hq))]
  simp only [formatPrice, h1, if_neg hc]
  rw [sepLoop_eq_groupThousandsSpec]

/-- Witness for C8: the spec's two examples. -/
theorem formatPrice_spec_witness :
    (0:ℚ) ≤ 550000 ∧ gs "Dollar" ≠ [] ∧
    formatPrice 550000 (gs "Dollar") =
      gs "Dollar" ++ [0x20] ++
        groupThousandsSpec (natDigits (goRound 550000).natAbs) ∧
    formatPrice 550000 (gs "Dollar") = gs "Dollar 550,000" ∧
    formatPrice 999 (gs "Dollar") = gs "Dollar 999" :=
  ⟨by norm_num, by decide,
    (formatPrice_spec 550000 (gs "Dollar") (by norm_num) (by decide)).1,
    by decide, by decide⟩

/-- Claim C10: an empty currency code falls back to the prefix "USD": for
every amount, `formatPrice amount "" = formatPrice amount "USD"`, e.g.
`formatPrice 550000 "" = "USD 550,000"`. -/
theorem formatPrice_empty_currency_defaults_USD :
    (∀ q : ℚ, formatPrice q [] = formatPrice q (gs "USD")) ∧
    formatPrice 550000 [] = gs "USD 550,000" := by
  constructor
  · intro q
    simp [formatPrice]
  · decide

/-! ### C9 — the two-column amenities grid -/

theorem countOdd_eq (n i : Nat) : countOdd i n = (i + n) / 2 - i / 2 := by
  induction n generalizing i with
  | zero => simp [countOdd]
  | succ m ih =>
    rw [countOdd, ih (i + 1)]
    by_cases h : i % 2 = 1
    · rw [if_pos h]
      omega
    · rw [if_neg h]
      omega

theorem amenityGridLoopEn_y (svc : Svc) (items : List GoStr) :
    ∀ (pdf : Pdf) (i : Nat) (y : ℚ),
      (amenityGridLoopEn svc pdf i items y).2 =
        y + (countOdd i items.length : ℚ) * amenityHeight := by
  induction items with
  | nil =>
    intro pdf i y
    simp [amenityGridLoopEn, countOdd]
  | cons a rest ih =>
    intro pdf i y
    simp only [amenityGridLoopEn, List.length_cons, countOdd]
    rw [ih]
    by_cases h : i % 2 = 1
    · rw [if_pos h, if_pos h]
      push_cast
      ring
    · rw [if_neg h, if_neg h]
      push_cast
      ring

theorem amenityGridLoopEn_ops_mono (svc : Svc) (o : Op) (items : List GoStr) :
    ∀ (pdf : Pdf) (i : Nat) (y : ℚ), o ∈ pdf.ops →
      o ∈ (amenityGridLoopEn svc pdf i items y).1.ops := by
  induction items with
  | nil =>
    intro pdf i y h
    simpa [amenityGridLoopEn] using h
  | cons a rest ih =>
    intro pdf i y h
    simp only [amenityGridLoopEn]
    apply ih
    by_cases hbf : svc.hasBodyFont <;>
      simp [Pdf.setXY, Pdf.line, Pdf.setFont, Pdf.setX, Pdf.cellFormat,
        Pdf.emit, hbf, h]

theorem amenityGridLoopEn_alternates (svc : Svc) (items : List GoStr) :
    ∀ (pdf : Pdf) (i : Nat) (y : ℚ) (j : Nat), j < items.length →
      ∃ yj,
        Op.line (marginX + (((i + j) % 2 : Nat) : ℚ) * (amenityColWidth + 10)) yj
          (marginX + (((i + j) % 2 : Nat) : ℚ) * (amenityColWidth + 10) + 2)
          (yj + 2)
        ∈ (amenityGridLoopEn svc pdf i items y).1.ops := by
  induction items with
  | nil =>
    intro pdf i y j hj
    simp at hj
  | cons a rest ih =>
    intro pdf i y j hj
    cases j with
    | zero =>
      refine ⟨y + amenityHeight / 2, ?_⟩
      have hx : (i + 0) % 2 = i % 2 := by omega
      rw [hx]
      simp only [amenityGridLoopEn]
      apply amenityGridLoopEn_ops_mono
      by_cases hbf : svc.hasBodyFont <;>
        simp [Pdf.setXY, Pdf.line, Pdf.setFont, Pdf.setX, Pdf.cellFormat,
          Pdf.emit, hbf]
    | succ j =>
      have hx : (i + (j + 1)) % 2 = (i + 1 + j) % 2 := by omega
      rw [hx]
      simp only [amenityGridLoopEn]
      exact ih _ (i + 1) _ j (by simpa using hj)

/-- Claim C9: on a non-empty amenity list of length `n` the two-column grid
places item `j` in column `j % 2` (alternating left and right), and advances
the y cursor by exactly `⌈n/2⌉` times the fixed row height 7 between the
start and the end of the grid. -/
theorem amenitiesGrid_rows_and_alternation (svc : Svc) (pdf : Pdf)
    (items : List GoStr) (y : ℚ) (h : 1 ≤ items.length) :
    (amenitiesGridEn svc pdf items y).2 =
      y + (((items.length + 1) / 2 : Nat) : ℚ) * amenityHeight ∧
    ∀ j < items.length, ∃ yj,
      Op.line (marginX + ((j % 2 : Nat) : ℚ) * (amenityColWidth + 10)) yj
        (marginX + ((j % 2 : Nat) : ℚ) * (amenityColWidth + 10) + 2) (yj + 2)
      ∈ (amenitiesGridEn svc pdf items y).1.ops := by
  constructor
  · simp only [amenitiesGridEn]
    have hco : countOdd 0 items.length = items.length / 2 := by
      rw [countOdd_eq]
      omega
    by_cases hodd : items.length % 2 = 1
    · rw [if_pos hodd]
      dsimp only
      rw [amenityGridLoopEn_y, hco]
      have hnat : items.length / 2 + 1 = (items.length + 1) / 2 := by omega
      rw [← hnat]
      push_cast
      ring
    · rw [if_neg hodd]
      rw [amenityGridLoopEn_y, hco]
      have hnat : items.length / 2 = (items.length + 1) / 2 := by omega
      rw [hnat]
  · intro j hj
    obtain ⟨yj, hyj⟩ := amenityGridLoopEn_alternates svc items pdf 0 y j hj
    have hx : (0 + j) % 2 = j % 2 := by omega
    rw [hx] at hyj
    refine ⟨yj, ?_⟩
    simp only [amenitiesGridEn]
    by_cases hodd : items.length % 2 = 1
    · rw [if_pos hodd]
      exact hyj
    · rw [if_neg hodd]
      exact hyj

/-- Witness for C9: five amenities consume exactly `⌈5/2⌉ = 3` rows. -/
theorem amenitiesGrid_witness :
    1 ≤ ([gs "a", gs "b", gs "c", gs "d", gs "e"] : List GoStr).length ∧
    (amenitiesGridEn ⟨[], false, [], [], false⟩ ⟨[], 0⟩
        [gs "a", gs "b", gs "c", gs "d", gs "e"] 0).2 =
      0 + ((([gs "a", gs "b", gs "c", gs "d", gs "e"] : List GoStr).length + 1) / 2
          : Nat) * amenityHeight :=
  ⟨by simp,
    (amenitiesGrid_rows_and_alternation ⟨[], false, [], [], false⟩ ⟨[], 0⟩
      [gs "a", gs "b", gs "c", gs "d", gs "e"] 0 (by simp)).1⟩

/-! ### Trace structure: every drawing step extends the trace without
starting a page -/

theorem extendsNP_refl (p : Pdf) : ExtendsNP p p :=
  ⟨[], by simp, by simp⟩

theorem extendsNP_trans {p q r : Pdf} (h1 : ExtendsNP p q)
    (h2 : ExtendsNP q r) : ExtendsNP p r := by
  obtain ⟨d1, hd1, hn1⟩ := h1
  obtain ⟨d2, hd2, hn2⟩ := h2
  refine ⟨d1 ++ d2, by rw [hd2, hd1, List.append_assoc], ?_⟩
  simp only [List.mem_append]
  rintro (h | h)
  · exact hn1 h
  · exact hn2 h

theorem extendsNP_mem {p q : Pdf} {o : Op} (h : ExtendsNP p q)
    (ho : o ∈ p.ops) : o ∈ q.ops := by
  obtain ⟨d, hd, _⟩ := h
  rw [hd]
  exact List.mem_append_left d ho

theorem extendsNP_ite (c : Prop) [Decidable c] {pdf q r : Pdf}
    (h1 : ExtendsNP pdf q) (h2 : ExtendsNP pdf r) :
    ExtendsNP pdf (if c then q else r) := by
  split_ifs
  · exact h1
  · exact h2

theorem extendsNP_ite_fst (c : Prop) [Decidable c] {pdf : Pdf}
    {a b : Pdf × ℚ} (h1 : ExtendsNP pdf a.1) (h2 : ExtendsNP pdf b.1) :
    ExtendsNP pdf (if c then a else b).1 := by
  split_ifs
  · exact h1
  · exact h2

theorem extendsNP_emit (pdf : Pdf) (op : Op) (h : op ≠ Op.addPage) :
    ExtendsNP pdf (pdf.emit op) :=
  ⟨[op], rfl, by simpa using h.symm⟩

theorem extendsNP_rect (pdf : Pdf) (x y w h : ℚ) (s : GoStr) :
    ExtendsNP pdf (pdf.rect x y w h s) :=
  extendsNP_emit pdf _ (fun hc => Op.noConfusion hc)

theorem extendsNP_line (pdf : Pdf) (a b c d : ℚ) :
    ExtendsNP pdf (pdf.line a b c d) :=
  extendsNP_emit pdf _ (fun hc => Op.noConfusion hc)

theorem extendsNP_circle (pdf : Pdf) (a b r : ℚ) :
    ExtendsNP pdf (pdf.circle a b r) :=
  extendsNP_emit pdf _ (fun hc => Op.noConfusion hc)

theorem extendsNP_setFont (pdf : Pdf) (f s : GoStr) (sz : ℚ) :
    ExtendsNP pdf (pdf.setFont f s sz) :=
  extendsNP_emit pdf _ (fun hc => Op.noConfusion hc)

theorem extendsNP_setY (pdf : Pdf) (v : ℚ) : ExtendsNP pdf (pdf.setY v) :=
  ⟨[], by simp [Pdf.setY], by simp⟩

theorem extendsNP_setXY (pdf : Pdf) (x y : ℚ) : ExtendsNP pdf (pdf.setXY x y) :=
  ⟨[], by simp [Pdf.setXY], by simp⟩

theorem extendsNP_setX (pdf : Pdf) (x : ℚ) : ExtendsNP pdf (pdf.setX x) :=
  extendsNP_refl pdf

theorem extendsNP_lnBreak (pdf : Pdf) (h : ℚ) : ExtendsNP pdf (pdf.lnBreak h) :=
  ⟨[], by simp [Pdf.lnBreak], by simp⟩

theorem extendsNP_cellFormat (pdf : Pdf) (w h : ℚ) (txt : GoStr) (ln : Nat)
    (align : GoStr) : ExtendsNP pdf (pdf.cellFormat w h txt ln align) := by
  refine ⟨[.cell w h txt ln align], ?_, by simp⟩
  simp only [Pdf.cellFormat, Pdf.emit]
  split_ifs <;> rfl

theorem extendsNP_multiCell (env : Env) (pdf : Pdf) (w h : ℚ)
    (txt align : GoStr) : ExtendsNP pdf (pdf.multiCell env w h txt align) :=
  ⟨[.multiCellOp w h txt align], rfl, by simp⟩

theorem extendsNP_addPageBackground (pdf : Pdf) :
    ExtendsNP pdf (addPageBackground pdf) :=
  extendsNP_rect pdf _ _ _ _ _

theorem extendsNP_addDecorativeCorners (pdf : Pdf) :
    ExtendsNP pdf (addDecorativeCorners pdf) := by
  simp only [addDecorativeCorners]
  refine extendsNP_trans ?_ (extendsNP_line _ _ _ _ _)
  refine extendsNP_trans ?_ (extendsNP_line _ _ _ _ _)
  refine extendsNP_trans ?_ (extendsNP_line _ _ _ _ _)
  refine extendsNP_trans ?_ (extendsNP_line _ _ _ _ _)
  refine extendsNP_trans ?_ (extendsNP_line _ _ _ _ _)
  refine extendsNP_trans ?_ (extendsNP_line _ _ _ _ _)
  refine extendsNP_trans ?_ (extendsNP_line _ _ _ _ _)
  exact extendsNP_line _ _ _ _ _

theorem extendsNP_diamondLines (pdf : Pdf) :
    ExtendsNP pdf (diamondLines pdf) := by
  simp only [diamondLines]
  refine extendsNP_trans ?_ (extendsNP_line _ _ _ _ _)
  refine extendsNP_trans ?_ (extendsNP_line _ _ _ _ _)
  refine extendsNP_trans ?_ (extendsNP_line _ _ _ _ _)
  refine extendsNP_trans ?_ (extendsNP_line _ _ _ _ _)
  refine extendsNP_trans ?_ (extendsNP_line _ _ _ _ _)
  exact extendsNP_line _ _ _ _ _

theorem extendsNP_addBottomDiamondDecoration (pdf : Pdf) :
    ExtendsNP pdf (addBottomDiamondDecoration pdf) := by
  simp only [addBottomDiamondDecoration]
  exact extendsNP_trans (extendsNP_setY _ _) (extendsNP_diamondLines _)

theorem extendsNP_addImageFromURL (env : Env) (pdf : Pdf) (url : GoStr)
    (x y w h : ℚ) : ExtendsNP pdf (addImageFromURL env pdf url x y w h).1 := by
  simp only [addImageFromURL]
  cases env.fetch url with
  | httpError => exact extendsNP_refl pdf
  | decodeError => exact extendsNP_emit pdf _ (fun hc => Op.noConfusion hc)
  | ok iw ih =>
    dsimp only
    split_ifs
    · exact extendsNP_emit pdf _ (fun hc => Op.noConfusion hc)
    · exact extendsNP_emit pdf _ (fun hc => Op.noConfusion hc)

theorem extendsNP_addBrandingIfAvailable (env : Env) (svc : Svc) (pdf : Pdf) :
    ExtendsNP pdf (addBrandingIfAvailable env svc pdf) := by
  simp only [addBrandingIfAvailable]
  split_ifs
  · exact extendsNP_refl pdf
  · exact extendsNP_addImageFromURL env pdf _ _ _ _ _

theorem extendsNP_addPageNumber (pdf : Pdf) (n : Nat) :
    ExtendsNP pdf (addPageNumber pdf n) := by
  simp only [addPageNumber]
  refine extendsNP_trans ?_ (extendsNP_cellFormat _ _ _ _ _ _)
  exact extendsNP_trans (extendsNP_setY _ _) (extendsNP_setFont _ _ _ _)

theorem extendsNP_addSectionHeader (pdf : Pdf) (title : GoStr) (y : ℚ) :
    ExtendsNP pdf (addSectionHeader pdf title y).1 := by
  simp only [addSectionHeader]
  refine extendsNP_trans ?_ (extendsNP_line _ _ _ _ _)
  refine extendsNP_trans ?_ (extendsNP_cellFormat _ _ _ _ _ _)
  refine extendsNP_trans ?_ (extendsNP_setFont _ _ _ _)
  exact extendsNP_trans (extendsNP_rect _ _ _ _ _ _) (extendsNP_setXY _ _ _)

theorem extendsNP_addSectionHeaderAligned (pdf : Pdf) (title : GoStr) (y : ℚ)
    (fontName align : GoStr) :
    ExtendsNP pdf (addSectionHeaderAligned pdf title y fontName align).1 := by
  simp only [addSectionHeaderAligned]
  refine extendsNP_trans ?_ (extendsNP_line _ _ _ _ _)
  refine extendsNP_trans ?_ (extendsNP_cellFormat _ _ _ _ _ _)
  refine extendsNP_trans ?_ (extendsNP_setXY _ _ _)
  refine extendsNP_trans ?_
    (extendsNP_ite _ (extendsNP_setFont _ _ _ _) (extendsNP_setFont _ _ _ _))
  exact extendsNP_rect _ _ _ _ _ _

theorem extendsNP_addSectionHeaderWithIcon (pdf : Pdf) (title : GoStr)
    (y : ℚ) (iconType : GoStr) :
    ExtendsNP pdf (addSectionHeaderWithIcon pdf title y iconType).1 := by
  simp only [addSectionHeaderWithIcon]
  refine extendsNP_trans ?_ (extendsNP_line _ _ _ _ _)
  refine extendsNP_trans ?_ (extendsNP_cellFormat _ _ _ _ _ _)
  refine extendsNP_trans ?_ (extendsNP_setFont _ _ _ _)
  refine extendsNP_trans ?_ (extendsNP_setXY _ _ _)
  refine extendsNP_trans ?_ (extendsNP_circle _ _ _ _)
  refine extendsNP_trans ?_ (extendsNP_rect _ _ _ _ _ _)
  exact extendsNP_trans (extendsNP_rect _ _ _ _ _ _) (extendsNP_rect _ _ _ _ _ _)

theorem extendsNP_titleLinesLoop (lines : List GoStr) :
    ∀ pdf : Pdf, ExtendsNP pdf (titleLinesLoop pdf lines) := by
  induction lines with
  | nil => intro pdf; exact extendsNP_refl pdf
  | cons l rest ih =>
    intro pdf
    simp only [titleLinesLoop]
    exact extendsNP_trans (extendsNP_cellFormat _ _ _ _ _ _) (ih _)

theorem extendsNP_coverHeroBlock (env : Env) (p : Property) (pdf : Pdf) :
    ExtendsNP pdf (coverHeroBlock env p pdf) := by
  simp only [coverHeroBlock]
  cases p.imageURLs with
  | nil =>
    refine extendsNP_trans ?_ (extendsNP_cellFormat _ _ _ _ _ _)
    refine extendsNP_trans ?_ (extendsNP_setXY _ _ _)
    exact extendsNP_trans (extendsNP_rect _ _ _ _ _ _) (extendsNP_setFont _ _ _ _)
  | cons url rest =>
    dsimp only
    split_ifs
    · exact extendsNP_trans (extendsNP_rect _ _ _ _ _ _)
        (extendsNP_addImageFromURL _ _ _ _ _ _ _)
    · refine extendsNP_trans ?_ (extendsNP_cellFormat _ _ _ _ _ _)
      refine extendsNP_trans ?_ (extendsNP_setXY _ _ _)
      refine extendsNP_trans ?_ (extendsNP_setFont _ _ _ _)
      refine extendsNP_trans ?_ (extendsNP_rect _ _ _ _ _ _)
      exact extendsNP_trans (extendsNP_rect _ _ _ _ _ _)
        (extendsNP_addImageFromURL _ _ _ _ _ _ _)

theorem extendsNP_coverPriceBlock (p : Property) (pdf : Pdf) :
    ExtendsNP pdf (coverPriceBlock p pdf) := by
  simp only [coverPriceBlock]
  refine extendsNP_trans ?_ (extendsNP_lnBreak _ _)
  refine extendsNP_trans ?_ (extendsNP_cellFormat _ _ _ _ _ _)
  refine extendsNP_trans ?_ (extendsNP_setFont _ _ _ _)
  refine extendsNP_trans ?_ (extendsNP_setY _ _)
  exact extendsNP_trans (extendsNP_rect _ _ _ _ _ _) (extendsNP_rect _ _ _ _ _ _)

theorem extendsNP_highlightsLoopEn (env : Env) (items : List GoStr) :
    ∀ (pdf : Pdf) (y : ℚ), ExtendsNP pdf (highlightsLoopEn env pdf items y).1 := by
  induction items with
  | nil => intro pdf y; exact extendsNP_refl pdf
  | cons a rest ih =>
    intro pdf y
    simp only [highlightsLoopEn]
    refine extendsNP_trans ?_ (ih _ _)
    refine extendsNP_trans ?_ (extendsNP_multiCell _ _ _ _ _ _)
    refine extendsNP_trans ?_ (extendsNP_setXY _ _ _)
    exact extendsNP_trans (extendsNP_circle _ _ _ _) (extendsNP_setFont _ _ _ _)

theorem extendsNP_highlightsLoopAr (env : Env) (svc : Svc) (items : List GoStr) :
    ∀ (pdf : Pdf) (y : ℚ),
      ExtendsNP pdf (highlightsLoopAr env svc pdf items y).1 := by
  induction items with
  | nil => intro pdf y; exact extendsNP_refl pdf
  | cons a rest ih =>
    intro pdf y
    simp only [highlightsLoopAr]
    refine extendsNP_trans ?_ (ih _ _)
    refine extendsNP_trans ?_ (extendsNP_multiCell _ _ _ _ _ _)
    refine extendsNP_trans ?_ (extendsNP_setXY _ _ _)
    refine extendsNP_trans ?_
      (extendsNP_ite _ (extendsNP_setFont _ _ _ _) (extendsNP_setFont _ _ _ _))
    exact extendsNP_circle _ _ _ _

theorem extendsNP_amenityGridLoopEn (svc : Svc) (items : List GoStr) :
    ∀ (pdf : Pdf) (i : Nat) (y : ℚ),
      ExtendsNP pdf (amenityGridLoopEn svc pdf i items y).1 := by
  induction items with
  | nil => intro pdf i y; exact extendsNP_refl pdf
  | cons a rest ih =>
    intro pdf i y
    simp only [amenityGridLoopEn]
    refine extendsNP_trans ?_ (ih _ _ _)
    refine extendsNP_trans ?_ (extendsNP_cellFormat _ _ _ _ _ _)
    refine extendsNP_trans ?_ (extendsNP_setX _ _)
    refine extendsNP_trans ?_
      (extendsNP_ite _ (extendsNP_setFont _ _ _ _) (extendsNP_setFont _ _ _ _))
    refine extendsNP_trans ?_ (extendsNP_line _ _ _ _ _)
    exact extendsNP_trans (extendsNP_setXY _ _ _) (extendsNP_line _ _ _ _ _)

theorem extendsNP_amenityGridLoopAr (svc : Svc) (items : List GoStr) :
    ∀ (pdf : Pdf) (i : Nat) (y : ℚ),
      ExtendsNP pdf (amenityGridLoopAr svc pdf i items y).1 := by
  induction items with
  | nil => intro pdf i y; exact extendsNP_refl pdf
  | cons a rest ih =>
    intro pdf i y
    simp only [amenityGridLoopAr]
    refine extendsNP_trans ?_ (ih _ _ _)
    refine extendsNP_trans ?_ (extendsNP_cellFormat _ _ _ _ _ _)
    refine extendsNP_trans ?_ (extendsNP_setX _ _)
    refine extendsNP_trans ?_
      (extendsNP_ite _ (extendsNP_setFont _ _ _ _) (extendsNP_setFont _ _ _ _))
    refine extendsNP_trans ?_ (extendsNP_line _ _ _ _ _)
    exact extendsNP_trans (extendsNP_setXY _ _ _) (extendsNP_line _ _ _ _ _)

theorem extendsNP_amenitiesGridEn (svc : Svc) (pdf : Pdf) (items : List GoStr)
    (y : ℚ) : ExtendsNP pdf (amenitiesGridEn svc pdf items y).1 := by
  simp only [amenitiesGridEn]
  split_ifs <;> exact extendsNP_amenityGridLoopEn svc items pdf 0 y

theorem extendsNP_amenitiesGridAr (svc : Svc) (pdf : Pdf) (items : List GoStr)
    (y : ℚ) : ExtendsNP pdf (amenitiesGridAr svc pdf items y).1 := by
  simp only [amenitiesGridAr]
  split_ifs <;> exact extendsNP_amenityGridLoopAr svc items pdf 0 y

theorem extendsNP_galleryLoop (env : Env) (urls : List GoStr) :
    ∀ (pdf : Pdf) (c : Nat) (y : ℚ),
      ExtendsNP pdf (galleryLoop env pdf urls c y) := by
  induction urls with
  | nil => intro pdf c y; exact extendsNP_refl pdf
  | cons u rest ih =>
    intro pdf c y
    simp only [galleryLoop]
    split_ifs
    · exact extendsNP_refl pdf
    · refine extendsNP_trans ?_ (ih _ _ _)
      refine extendsNP_trans ?_ (extendsNP_addImageFromURL _ _ _ _ _ _ _)
      refine extendsNP_trans ?_ (extendsNP_rect _ _ _ _ _ _)
      exact extendsNP_trans (extendsNP_rect _ _ _ _ _ _) (extendsNP_rect _ _ _ _ _ _)
    · refine extendsNP_trans ?_ (ih _ _ _)
      refine extendsNP_trans ?_ (extendsNP_rect _ _ _ _ _ _)
      refine extendsNP_trans ?_ (extendsNP_addImageFromURL _ _ _ _ _ _ _)
      refine extendsNP_trans ?_ (extendsNP_rect _ _ _ _ _ _)
      exact extendsNP_trans (extendsNP_rect _ _ _ _ _ _) (extendsNP_rect _ _ _ _ _ _)
    · exact extendsNP_refl pdf

theorem extendsNP_addEnglishDetailsContent (env : Env) (svc : Svc)
    (p : Property) (pdf : Pdf) (y : ℚ) :
    ExtendsNP pdf (addEnglishDetailsContent env svc p pdf y).1 := by
  simp only [addEnglishDetailsContent]
  refine extendsNP_ite_fst _ ?_ ?_
  · refine extendsNP_trans ?_ (extendsNP_amenitiesGridEn _ _ _ _)
    refine extendsNP_trans ?_ (extendsNP_setFont _ _ _ _)
    refine extendsNP_trans ?_ (extendsNP_addSectionHeader _ _ _)
    refine extendsNP_ite_fst _ ?_ ?_
    · refine extendsNP_trans ?_ (extendsNP_highlightsLoopEn _ _ _ _)
      refine extendsNP_trans ?_ (extendsNP_setFont _ _ _ _)
      refine extendsNP_trans ?_ (extendsNP_addSectionHeader _ _ _)
      refine extendsNP_trans ?_ (extendsNP_multiCell _ _ _ _ _ _)
      refine extendsNP_trans ?_ (extendsNP_setXY _ _ _)
      refine extendsNP_trans ?_
        (extendsNP_ite _ (extendsNP_setFont _ _ _ _) (extendsNP_setFont _ _ _ _))
      exact extendsNP_addSectionHeader _ _ _
    · refine extendsNP_trans ?_ (extendsNP_multiCell _ _ _ _ _ _)
      refine extendsNP_trans ?_ (extendsNP_setXY _ _ _)
      refine extendsNP_trans ?_
        (extendsNP_ite _ (extendsNP_setFont _ _ _ _) (extendsNP_setFont _ _ _ _))
      exact extendsNP_addSectionHeader _ _ _
  · refine extendsNP_ite_fst _ ?_ ?_
    · refine extendsNP_trans ?_ (extendsNP_highlightsLoopEn _ _ _ _)
      refine extendsNP_trans ?_ (extendsNP_setFont _ _ _ _)
      refine extendsNP_trans ?_ (extendsNP_addSectionHeader _ _ _)
      refine extendsNP_trans ?_ (extendsNP_multiCell _ _ _ _ _ _)
      refine extendsNP_trans ?_ (extendsNP_setXY _ _ _)
      refine extendsNP_trans ?_
        (extendsNP_ite _ (extendsNP_setFont _ _ _ _) (extendsNP_setFont _ _ _ _))
      exact extendsNP_addSectionHeader _ _ _
    · refine extendsNP_trans ?_ (extendsNP_multiCell _ _ _ _ _ _)
      refine extendsNP_trans ?_ (extendsNP_setXY _ _ _)
      refine extendsNP_trans ?_
        (extendsNP_ite _ (extendsNP_setFont _ _ _ _) (extendsNP_setFont _ _ _ _))
      exact extendsNP_addSectionHeader _ _ _

theorem extendsNP_addArabicDetailsContent (env : Env) (svc : Svc)
    (p : Property) (pdf : Pdf) (y : ℚ) :
    ExtendsNP pdf (addArabicDetailsContent env svc p pdf y).1 := by
  simp only [addArabicDetailsContent]
  refine extendsNP_ite_fst _ ?_ ?_
  · refine extendsNP_trans ?_ (extendsNP_amenitiesGridAr _ _ _ _)
    refine extendsNP_trans ?_
      (extendsNP_ite _ (extendsNP_setFont _ _ _ _) (extendsNP_setFont _ _ _ _))
    refine extendsNP_ite_fst _ ?_ ?_
    · refine extendsNP_trans ?_ (extendsNP_addSectionHeaderAligned _ _ _ _ _)
      refine extendsNP_ite_fst _ ?_ ?_
      · refine extendsNP_trans ?_ (extendsNP_highlightsLoopAr _ _ _ _ _)
        refine extendsNP_trans ?_
          (extendsNP_ite _ (extendsNP_setFont _ _ _ _) (extendsNP_setFont _ _ _ _))
        refine extendsNP_ite_fst _ ?_ ?_
        · refine extendsNP_trans ?_ (extendsNP_addSectionHeaderAligned _ _ _ _ _)
          refine extendsNP_trans ?_ (extendsNP_multiCell _ _ _ _ _ _)
          refine extendsNP_trans ?_ (extendsNP_setXY _ _ _)
          refine extendsNP_trans ?_
            (extendsNP_ite _ (extendsNP_setFont _ _ _ _) (extendsNP_setFont _ _ _ _))
          refine extendsNP_ite_fst _ ?_ ?_
          · exact extendsNP_addSectionHeaderAligned _ _ _ _ _
          · exact extendsNP_addSectionHeader _ _ _
        · refine extendsNP_trans ?_ (extendsNP_addSectionHeader _ _ _)
          refine extendsNP_trans ?_ (extendsNP_multiCell _ _ _ _ _ _)
          refine extendsNP_trans ?_ (extendsNP_setXY _ _ _)
          refine extendsNP_trans ?_
            (extendsNP_ite _ (extendsNP_setFont _ _ _ _) (extendsNP_setFont _ _ _ _))
          refine extendsNP_ite_fst _ ?_ ?_
          · exact extendsNP_addSectionHeaderAligned _ _ _ _ _
          · exact extendsNP_addSectionHeader _ _ _
      · refine extendsNP_trans ?_ (extendsNP_multiCell _ _ _ _ _ _)
        refine extendsNP_trans ?_ (extendsNP_setXY _ _ _)
        refine extendsNP_trans ?_
          (extendsNP_ite _ (extendsNP_setFont _ _ _ _) (extendsNP_setFont _ _ _ _))
        refine extendsNP_ite_fst _ ?_ ?_
        · exact extendsNP_addSectionHeaderAligned _ _ _ _ _
        · exact extendsNP_addSectionHeader _ _ _
    · refine extendsNP_trans ?_ (extendsNP_addSectionHeader _ _ _)
      refine extendsNP_ite_fst _ ?_ ?_
      · refine extendsNP_trans ?_ (extendsNP_highlightsLoopAr _ _ _ _ _)
        refine extendsNP_trans ?_
          (extendsNP_ite _ (extendsNP_setFont _ _ _ _) (extendsNP_setFont _ _ _ _))
        refine extendsNP_ite_fst _ ?_ ?_
        · refine extendsNP_trans ?_ (extendsNP_addSectionHeaderAligned _ _ _ _ _)
          refine extendsNP_trans ?_ (extendsNP_multiCell _ _ _ _ _ _)
          refine extendsNP_trans ?_ (extendsNP_setXY _ _ _)
          refine extendsNP_trans ?_
            (extendsNP_ite _ (extendsNP_setFont _ _ _ _) (extendsNP_setFont _ _ _ _))
          refine extendsNP_ite_fst _ ?_ ?_
          · exact extendsNP_addSectionHeaderAligned _ _ _ _ _
          · exact extendsNP_addSectionHeader _ _ _
        · refine extendsNP_trans ?_ (extendsNP_addSectionHeader _ _ _)
          refine extendsNP_trans ?_ (extendsNP_multiCell _ _ _ _ _ _)
          refine extendsNP_trans ?_ (extendsNP_setXY _ _ _)
          refine extendsNP_trans ?_
            (extendsNP_ite _ (extendsNP_setFont _ _ _ _) (extendsNP_setFont _ _ _ _))
          refine extendsNP_ite_fst _ ?_ ?_
          · exact extendsNP_addSectionHeaderAligned _ _ _ _ _
          · exact extendsNP_addSectionHeader _ _ _
      · refine extendsNP_trans ?_ (extendsNP_multiCell _ _ _ _ _ _)
        refine extendsNP_trans ?_ (extendsNP_setXY _ _ _)
        refine extendsNP_trans ?_
          (extendsNP_ite _ (extendsNP_setFont _ _ _ _) (extendsNP_setFont _ _ _ _))
        refine extendsNP_ite_fst _ ?_ ?_
        · exact extendsNP_addSectionHeaderAligned _ _ _ _ _
        · exact extendsNP_addSectionHeader _ _ _
  · refine extendsNP_ite_fst _ ?_ ?_
    · refine extendsNP_trans ?_ (extendsNP_highlightsLoopAr _ _ _ _ _)
      refine extendsNP_trans ?_
        (extendsNP_ite _ (extendsNP_setFont _ _ _ _) (extendsNP_setFont _ _ _ _))
      refine extendsNP_ite_fst _ ?_ ?_
      · refine extendsNP_trans ?_ (extendsNP_addSectionHeaderAligned _ _ _ _ _)
        refine extendsNP_trans ?_ (extendsNP_multiCell _ _ _ _ _ _)
        refine extendsNP_trans ?_ (extendsNP_setXY _ _ _)
        refine extendsNP_trans ?_
          (extendsNP_ite _ (extendsNP_setFont _ _ _ _) (extendsNP_setFont _ _ _ _))
        refine extendsNP_ite_fst _ ?_ ?_
        · exact extendsNP_addSectionHeaderAligned _ _ _ _ _
        · exact extendsNP_addSectionHeader _ _ _
      · refine extendsNP_trans ?_ (extendsNP_addSectionHeader _ _ _)
        refine extendsNP_trans ?_ (extendsNP_multiCell _ _ _ _ _ _)
        refine extendsNP_trans ?_ (extendsNP_setXY _ _ _)
        refine extendsNP_trans ?_
          (extendsNP_ite _ (extendsNP_setFont _ _ _ _) (extendsNP_setFont _ _ _ _))
        refine extendsNP_ite_fst _ ?_ ?_
        · exact extendsNP_addSectionHeaderAligned _ _ _ _ _
        · exact extendsNP_addSectionHeader _ _ _
    · refine extendsNP_trans ?_ (extendsNP_multiCell _ _ _ _ _ _)
      refine extendsNP_trans ?_ (extendsNP_setXY _ _ _)
      refine extendsNP_trans ?_
        (extendsNP_ite _ (extendsNP_setFont _ _ _ _) (extendsNP_setFont _ _ _ _))
      refine extendsNP_ite_fst _ ?_ ?_
      · exact extendsNP_addSectionHeaderAligned _ _ _ _ _
      · exact extendsNP_addSectionHeader _ _ _

theorem extendsNP_coverContent (env : Env) (svc : Svc) (p : Property)
    (pdf : Pdf) : ExtendsNP pdf (coverContent env svc p pdf) := by
  simp only [coverContent]
  refine extendsNP_trans ?_ (extendsNP_diamondLines _)
  refine extendsNP_trans ?_ (extendsNP_setY _ _)
  refine extendsNP_trans ?_ (extendsNP_multiCell _ _ _ _ _ _)
  refine extendsNP_trans ?_ (extendsNP_setFont _ _ _ _)
  refine extendsNP_trans ?_ (extendsNP_coverPriceBlock _ _)
  refine extendsNP_trans ?_ (extendsNP_lnBreak _ _)
  refine extendsNP_trans ?_ (extendsNP_titleLinesLoop _ _)
  refine extendsNP_trans ?_ (extendsNP_setFont _ _ _ _)
  refine extendsNP_trans ?_ (extendsNP_setY _ _)
  refine extendsNP_trans ?_ (extendsNP_coverHeroBlock _ _ _)
  refine extendsNP_trans ?_ (extendsNP_rect _ _ _ _ _ _)
  refine extendsNP_trans ?_ (extendsNP_cellFormat _ _ _ _ _ _)
  refine extendsNP_trans ?_ (extendsNP_setFont _ _ _ _)
  refine extendsNP_trans ?_ (extendsNP_setY _ _)
  refine extendsNP_trans ?_ (extendsNP_addDecorativeCorners _)
  exact extendsNP_trans (extendsNP_addPageBackground _)
    (extendsNP_addBrandingIfAvailable _ _ _)

theorem extendsNP_coverContentArabic (env : Env) (svc : Svc) (p : Property)
    (pdf : Pdf) : ExtendsNP pdf (coverContentArabic env svc p pdf) := by
  simp only [coverContentArabic]
  refine extendsNP_trans ?_ (extendsNP_diamondLines _)
  refine extendsNP_trans ?_ (extendsNP_setY _ _)
  refine extendsNP_trans ?_ (extendsNP_multiCell _ _ _ _ _ _)
  refine extendsNP_trans ?_ (extendsNP_setFont _ _ _ _)
  refine extendsNP_trans ?_ (extendsNP_coverPriceBlock _ _)
  refine extendsNP_trans ?_ (extendsNP_lnBreak _ _)
  refine extendsNP_trans ?_ (extendsNP_titleLinesLoop _ _)
  refine extendsNP_trans ?_
    (extendsNP_ite _ (extendsNP_setFont _ _ _ _) (extendsNP_setFont _ _ _ _))
  refine extendsNP_trans ?_ (extendsNP_setY _ _)
  refine extendsNP_trans ?_ (extendsNP_coverHeroBlock _ _ _)
  refine extendsNP_trans ?_ (extendsNP_rect _ _ _ _ _ _)
  refine extendsNP_trans ?_ (extendsNP_cellFormat _ _ _ _ _ _)
  refine extendsNP_trans ?_
    (extendsNP_ite _ (extendsNP_setFont _ _ _ _) (extendsNP_setFont _ _ _ _))
  refine extendsNP_trans ?_ (extendsNP_setY _ _)
  refine extendsNP_trans ?_ (extendsNP_addDecorativeCorners _)
  exact extendsNP_trans (extendsNP_addPageBackground _)
    (extendsNP_addBrandingIfAvailable _ _ _)

theorem extendsNP_detailsContent (env : Env) (svc : Svc) (p : Property)
    (isArabic : Bool) (pdf : Pdf) :
    ExtendsNP pdf (detailsContent env svc p isArabic pdf) := by
  simp only [detailsContent]
  refine extendsNP_trans ?_ (extendsNP_addBottomDiamondDecoration _)
  refine extendsNP_trans ?_
    (extendsNP_ite_fst _ (extendsNP_addArabicDetailsContent _ _ _ _ _)
      (extendsNP_addEnglishDetailsContent _ _ _ _ _))
  exact extendsNP_trans (extendsNP_addPageBackground _)
    (extendsNP_addBrandingIfAvailable _ _ _)

theorem extendsNP_investmentContent (env : Env) (svc : Svc) (p : Property)
    (isArabic : Bool) (pdf : Pdf) :
    ExtendsNP pdf (investmentContent env svc p isArabic pdf) := by
  simp only [investmentContent]
  refine extendsNP_ite _ ?_ ?_
  · refine extendsNP_trans ?_ (extendsNP_galleryLoop _ _ _ _ _)
    refine extendsNP_ite_fst _ ?_ ?_
    · refine extendsNP_trans ?_ (extendsNP_addSectionHeaderAligned _ _ _ _ _)
      refine extendsNP_ite_fst _ ?_ ?_
      · refine extendsNP_trans ?_ (extendsNP_multiCell _ _ _ _ _ _)
        refine extendsNP_trans ?_ (extendsNP_setXY _ _ _)
        refine extendsNP_ite_fst _ ?_ ?_
        · refine extendsNP_trans ?_ (extendsNP_setFont _ _ _ _)
          refine extendsNP_trans ?_ (extendsNP_addSectionHeaderAligned _ _ _ _ _)
          exact extendsNP_trans (extendsNP_addPageBackground _)
            (extendsNP_addBrandingIfAvailable _ _ _)
        · refine extendsNP_trans ?_
            (extendsNP_ite _ (extendsNP_setFont _ _ _ _) (extendsNP_setFont _ _ _ _))
          refine extendsNP_trans ?_ (extendsNP_addSectionHeaderWithIcon _ _ _ _)
          exact extendsNP_trans (extendsNP_addPageBackground _)
            (extendsNP_addBrandingIfAvailable _ _ _)
      · exact extendsNP_trans (extendsNP_addPageBackground _)
          (extendsNP_addBrandingIfAvailable _ _ _)
    · refine extendsNP_trans ?_ (extendsNP_addSectionHeaderWithIcon _ _ _ _)
      refine extendsNP_ite_fst _ ?_ ?_
      · refine extendsNP_trans ?_ (extendsNP_multiCell _ _ _ _ _ _)
        refine extendsNP_trans ?_ (extendsNP_setXY _ _ _)
        refine extendsNP_ite_fst _ ?_ ?_
        · refine extendsNP_trans ?_ (extendsNP_setFont _ _ _ _)
          refine extendsNP_trans ?_ (extendsNP_addSectionHeaderAligned _ _ _ _ _)
          exact extendsNP_trans (extendsNP_addPageBackground _)
            (extendsNP_addBrandingIfAvailable _ _ _)
        · refine extendsNP_trans ?_
            (extendsNP_ite _ (extendsNP_setFont _ _ _ _) (extendsNP_setFont _ _ _ _))
          refine extendsNP_trans ?_ (extendsNP_addSectionHeaderWithIcon _ _ _ _)
          exact extendsNP_trans (extendsNP_addPageBackground _)
            (extendsNP_addBrandingIfAvailable _ _ _)
      · exact extendsNP_trans (extendsNP_addPageBackground _)
          (extendsNP_addBrandingIfAvailable _ _ _)
  · refine extendsNP_ite_fst _ ?_ ?_
    · refine extendsNP_trans ?_ (extendsNP_multiCell _ _ _ _ _ _)
      refine extendsNP_trans ?_ (extendsNP_setXY _ _ _)
      refine extendsNP_ite_fst _ ?_ ?_
      · refine extendsNP_trans ?_ (extendsNP_setFont _ _ _ _)
        refine extendsNP_trans ?_ (extendsNP_addSectionHeaderAligned _ _ _ _ _)
        exact extendsNP_trans (extendsNP_addPageBackground _)
          (extendsNP_addBrandingIfAvailable _ _ _)
      · refine extendsNP_trans ?_
          (extendsNP_ite _ (extendsNP_setFont _ _ _ _) (extendsNP_setFont _ _ _ _))
        refine extendsNP_trans ?_ (extendsNP_addSectionHeaderWithIcon _ _ _ _)
        exact extendsNP_trans (extendsNP_addPageBackground _)
          (extendsNP_addBrandingIfAvailable _ _ _)
    · exact extendsNP_trans (extendsNP_addPageBackground _)
        (extendsNP_addBrandingIfAvailable _ _ _)

theorem extendsNP_addAgentContactCardTop (svc : Svc) (p : Property)
    (pdf : Pdf) (startY : ℚ) (useArabic : Bool) :
    ExtendsNP pdf (addAgentContactCardTop svc p pdf startY useArabic).1 := by
  simp only [addAgentContactCardTop]
  refine extendsNP_trans ?_ (extendsNP_cellFormat _ _ _ _ _ _)
  refine extendsNP_trans ?_ (extendsNP_setFont _ _ _ _)
  refine extendsNP_trans ?_ (extendsNP_cellFormat _ _ _ _ _ _)
  refine extendsNP_trans ?_ (extendsNP_setXY _ _ _)
  refine extendsNP_trans ?_
    (extendsNP_ite _ (extendsNP_setFont _ _ _ _) (extendsNP_setFont _ _ _ _))
  refine extendsNP_trans ?_ (extendsNP_cellFormat _ _ _ _ _ _)
  refine extendsNP_trans ?_ (extendsNP_setFont _ _ _ _)
  refine extendsNP_trans ?_ (extendsNP_cellFormat _ _ _ _ _ _)
  refine extendsNP_trans ?_ (extendsNP_setXY _ _ _)
  refine extendsNP_trans ?_
    (extendsNP_ite _ (extendsNP_setFont _ _ _ _) (extendsNP_setFont _ _ _ _))
  refine extendsNP_trans ?_ (extendsNP_cellFormat _ _ _ _ _ _)
  refine extendsNP_trans ?_
    (extendsNP_ite _ (extendsNP_setFont _ _ _ _)
      (extendsNP_ite _ (extendsNP_setFont _ _ _ _) (extendsNP_setFont _ _ _ _)))
  refine extendsNP_trans ?_ (extendsNP_cellFormat _ _ _ _ _ _)
  refine extendsNP_trans ?_ (extendsNP_setXY _ _ _)
  refine extendsNP_trans ?_
    (extendsNP_ite _ (extendsNP_setFont _ _ _ _) (extendsNP_setFont _ _ _ _))
  refine extendsNP_trans ?_ (extendsNP_line _ _ _ _ _)
  refine extendsNP_trans ?_ (extendsNP_cellFormat _ _ _ _ _ _)
  refine extendsNP_trans ?_
    (extendsNP_ite _ (extendsNP_setFont _ _ _ _) (extendsNP_setFont _ _ _ _))
  refine extendsNP_trans ?_ (extendsNP_setXY _ _ _)
  refine extendsNP_trans ?_ (extendsNP_rect _ _ _ _ _ _)
  exact extendsNP_trans (extendsNP_rect _ _ _ _ _ _) (extendsNP_rect _ _ _ _ _ _)

theorem extendsNP_addThankYouMessage (env : Env) (svc : Svc) (p : Property)
    (pdf : Pdf) (startY : ℚ) (useArabic : Bool) :
    ExtendsNP pdf (addThankYouMessage env svc p pdf startY useArabic) := by
  simp only [addThankYouMessage]
  refine extendsNP_trans ?_ (extendsNP_multiCell _ _ _ _ _ _)
  refine extendsNP_trans ?_ (extendsNP_setXY _ _ _)
  refine extendsNP_trans ?_
    (extendsNP_ite _ (extendsNP_setFont _ _ _ _)
      (extendsNP_ite _ (extendsNP_setFont _ _ _ _) (extendsNP_setFont _ _ _ _)))
  refine extendsNP_trans (extendsNP_setY _ _) (extendsNP_line _ _ _ _ _)

theorem extendsNP_contactContent (env : Env) (svc : Svc) (p : Property)
    (useArabic : Bool) (pdf : Pdf) :
    ExtendsNP pdf (contactContent env svc p useArabic pdf) := by
  simp only [contactContent]
  refine extendsNP_trans ?_ (extendsNP_addBottomDiamondDecoration _)
  refine extendsNP_trans ?_ (extendsNP_addThankYouMessage _ _ _ _ _ _)
  refine extendsNP_trans ?_ (extendsNP_addAgentContactCardTop _ _ _ _ _)
  exact extendsNP_trans (extendsNP_addPageBackground _)
    (extendsNP_addBrandingIfAvailable _ _ _)

theorem extendsNP_arabicContactContent (env : Env) (svc : Svc) (p : Property)
    (pdf : Pdf) : ExtendsNP pdf (arabicContactContent env svc p pdf) := by
  simp only [arabicContactContent]
  refine extendsNP_trans ?_ (extendsNP_addBottomDiamondDecoration _)
  refine extendsNP_trans ?_ (extendsNP_addThankYouMessage _ _ _ _ _ _)
  refine extendsNP_trans ?_ (extendsNP_addAgentContactCardTop _ _ _ _ _)
  refine extendsNP_trans ?_ (extendsNP_multiCell _ _ _ _ _ _)
  refine extendsNP_trans ?_ (extendsNP_setXY _ _ _)
  refine extendsNP_trans ?_
    (extendsNP_ite _ (extendsNP_setFont _ _ _ _)
      (extendsNP_ite _ (extendsNP_setFont _ _ _ _) (extendsNP_setFont _ _ _ _)))
  refine extendsNP_ite_fst _ ?_ ?_
  · refine extendsNP_trans ?_ (extendsNP_addSectionHeaderAligned _ _ _ _ _)
    exact extendsNP_trans (extendsNP_addPageBackground _)
      (extendsNP_addBrandingIfAvailable _ _ _)
  · refine extendsNP_trans ?_ (extendsNP_addSectionHeader _ _ _)
    exact extendsNP_trans (extendsNP_addPageBackground _)
      (extendsNP_addBrandingIfAvailable _ _ _)

/-! ### Page structure: each page function appends `AddPage` followed by a
page body free of further `AddPage`s and ending in its page-number cell -/

theorem addPage_ops (pdf : Pdf) : (Pdf.addPage pdf).ops = pdf.ops ++ [Op.addPage] := by
  simp [Pdf.addPage, Pdf.emit]

theorem addPageNumber_ops (pdf : Pdf) (n : Nat) :
    (addPageNumber pdf n).ops =
      pdf.ops ++ [Op.setFont (gs "Arial") (gs "I") 9, pageNumCell n] := by
  simp [addPageNumber, Pdf.setY, Pdf.setFont, Pdf.cellFormat, Pdf.emit,
    pageNumCell]

theorem page_shape (mid : Pdf → Pdf) (hmid : ∀ q : Pdf, ExtendsNP q (mid q))
    (n : Nat) (pdf : Pdf) :
    ∃ body, (addPageNumber (mid pdf.addPage) n).ops = pdf.ops ++ Op.addPage :: body ∧
      Op.addPage ∉ body ∧ body.getLast? = some (pageNumCell n) := by
  obtain ⟨d, hd, hnp⟩ := hmid pdf.addPage
  refine ⟨d ++ [Op.setFont (gs "Arial") (gs "I") 9, pageNumCell n], ?_, ?_, ?_⟩
  · rw [addPageNumber_ops, hd, addPage_ops]
    simp
  · intro hmem
    rcases List.mem_append.mp hmem with h | h
    · exact hnp h
    · simp [pageNumCell] at h
  · rw [show d ++ [Op.setFont (gs "Arial") (gs "I") 9, pageNumCell n] =
        (d ++ [Op.setFont (gs "Arial") (gs "I") 9]) ++ [pageNumCell n] by simp]
    exact List.getLast?_concat _

theorem page_mem {o : Op} (mid : Pdf → Pdf) (hmid : ∀ q : Pdf, ExtendsNP q (mid q))
    (n : Nat) (pdf : Pdf) (ho : o ∈ pdf.ops) :
    o ∈ (addPageNumber (mid pdf.addPage) n).ops := by
  refine extendsNP_mem (extendsNP_addPageNumber _ _) ?_
  refine extendsNP_mem (hmid _) ?_
  rw [addPage_ops]
  exact List.mem_append_left _ ho

theorem count_le_page (mid : Pdf → Pdf) (hmid : ∀ q : Pdf, ExtendsNP q (mid q))
    (n : Nat) (pdf : Pdf) (o : Op) :
    pdf.ops.count o ≤ (addPageNumber (mid pdf.addPage) n).ops.count o := by
  obtain ⟨body, hb, _, _⟩ := page_shape mid hmid n pdf
  rw [hb, List.count_append]
  exact Nat.le_add_right _ _

theorem addCoverPage_shape (env : Env) (svc : Svc) (p : Property) (pdf : Pdf) :
    ∃ body, (addCoverPage env svc p pdf).ops = pdf.ops ++ Op.addPage :: body ∧
      Op.addPage ∉ body ∧ body.getLast? = some (pageNumCell 1) :=
  page_shape (coverContent env svc p) (fun q => extendsNP_coverContent env svc p q) 1 pdf

theorem addCoverPageArabic_shape (env : Env) (svc : Svc) (p : Property) (pdf : Pdf) :
    ∃ body, (addCoverPageArabic env svc p pdf).ops = pdf.ops ++ Op.addPage :: body ∧
      Op.addPage ∉ body ∧ body.getLast? = some (pageNumCell 1) :=
  page_shape (coverContentArabic env svc p)
    (fun q => extendsNP_coverContentArabic env svc p q) 1 pdf

theorem addDetailsPageOnly_shape (env : Env) (svc : Svc) (p : Property)
    (pdf : Pdf) (isArabic : Bool) :
    ∃ body, (addDetailsPageOnly env svc p pdf isArabic).ops =
        pdf.ops ++ Op.addPage :: body ∧
      Op.addPage ∉ body ∧ body.getLast? = some (pageNumCell 2) :=
  page_shape (detailsContent env svc p isArabic)
    (fun q => extendsNP_detailsContent env svc p isArabic q) 2 pdf

theorem addInvestmentAndGalleryPage_shape (env : Env) (svc : Svc) (p : Property)
    (pdf : Pdf) (isArabic : Bool) :
    ∃ body, (addInvestmentAndGalleryPage env svc p pdf isArabic).ops =
        pdf.ops ++ Op.addPage :: body ∧
      Op.addPage ∉ body ∧ body.getLast? = some (pageNumCell 3) :=
  page_shape (investmentContent env svc p isArabic)
    (fun q => extendsNP_investmentContent env svc p isArabic q) 3 pdf

theorem addContactPageWithLanguage_shape (env : Env) (svc : Svc) (p : Property)
    (pdf : Pdf) (useArabic : Bool) :
    ∃ body, (addContactPageWithLanguage env svc p pdf useArabic).ops =
        pdf.ops ++ Op.addPage :: body ∧
      Op.addPage ∉ body ∧ body.getLast? = some (pageNumCell 4) :=
  page_shape (contactContent env svc p useArabic)
    (fun q => extendsNP_contactContent env svc p useArabic q) 4 pdf

theorem addContactPage_shape (env : Env) (svc : Svc) (p : Property) (pdf : Pdf) :
    ∃ body, (addContactPage env svc p pdf).ops = pdf.ops ++ Op.addPage :: body ∧
      Op.addPage ∉ body ∧ body.getLast? = some (pageNumCell 4) :=
  addContactPageWithLanguage_shape env svc p pdf false

/-! ### Splitting a trace into pages -/

theorem splitPagesGo_body (b : List Op) :
    ∀ (cur rest : List Op), Op.addPage ∉ b →
      splitPagesGo cur (b ++ Op.addPage :: rest) =
        (cur.reverse ++ b) :: splitPagesGo [] rest := by
  induction b with
  | nil => intro cur rest _; simp [splitPagesGo]
  | cons o b ih =>
    intro cur rest hb
    have ho : o ≠ Op.addPage := fun h => hb (by simp [h])
    have hb2 : Op.addPage ∉ b := fun h => hb (List.mem_cons_of_mem _ h)
    cases o
    case addPage => exact absurd rfl ho
    all_goals
      simp only [List.cons_append, splitPagesGo, List.append_eq]
      rw [ih _ _ hb2]
      simp

theorem splitPagesGo_noPage (b : List Op) :
    ∀ cur : List Op, Op.addPage ∉ b → splitPagesGo cur b = [cur.reverse ++ b] := by
  induction b with
  | nil => intro cur _; simp [splitPagesGo]
  | cons o b ih =>
    intro cur hb
    have ho : o ≠ Op.addPage := fun h => hb (by simp [h])
    have hb2 : Op.addPage ∉ b := fun h => hb (List.mem_cons_of_mem _ h)
    cases o
    case addPage => exact absurd rfl ho
    all_goals
      simp only [splitPagesGo]
      rw [ih _ hb2]
      simp

theorem splitPages_four (b1 b2 b3 b4 : List Op)
    (h1 : Op.addPage ∉ b1) (h2 : Op.addPage ∉ b2) (h3 : Op.addPage ∉ b3)
    (h4 : Op.addPage ∉ b4) :
    splitPages (Op.addPage :: (b1 ++ Op.addPage :: (b2 ++ Op.addPage ::
      (b3 ++ Op.addPage :: b4)))) = [b1, b2, b3, b4] := by
  unfold splitPages
  simp only [splitPagesGo]
  rw [splitPagesGo_body b1 [] _ h1, splitPagesGo_body b2 [] _ h2,
    splitPagesGo_body b3 [] _ h3, splitPagesGo_noPage b4 [] h4]
  simp

theorem composeEnglish_pages (env : Env) (p : Property) :
    ∃ b1 b2 b3 b4,
      (composeEnglish env p).ops =
        Op.addPage :: (b1 ++ Op.addPage :: (b2 ++ Op.addPage ::
          (b3 ++ Op.addPage :: b4))) ∧
      (Op.addPage ∉ b1 ∧ Op.addPage ∉ b2 ∧ Op.addPage ∉ b3 ∧ Op.addPage ∉ b4) ∧
      b1.getLast? = some (pageNumCell 1) ∧ b2.getLast? = some (pageNumCell 2) ∧
      b3.getLast? = some (pageNumCell 3) ∧ b4.getLast? = some (pageNumCell 4) := by
  obtain ⟨b1, hb1, hn1, hl1⟩ :=
    addCoverPage_shape env (mkSvc env) p { ops := [], y := 0 }
  obtain ⟨b2, hb2, hn2, hl2⟩ :=
    addDetailsPageOnly_shape env (mkSvc env) p
      (addCoverPage env (mkSvc env) p { ops := [], y := 0 }) false
  obtain ⟨b3, hb3, hn3, hl3⟩ :=
    addInvestmentAndGalleryPage_shape env (mkSvc env) p
      (addDetailsPageOnly env (mkSvc env) p
        (addCoverPage env (mkSvc env) p { ops := [], y := 0 }) false) false
  obtain ⟨b4, hb4, hn4, hl4⟩ :=
    addContactPage_shape env (mkSvc env) p
      (addInvestmentAndGalleryPage env (mkSvc env) p
        (addDetailsPageOnly env (mkSvc env) p
          (addCoverPage env (mkSvc env) p { ops := [], y := 0 }) false) false)
  refine ⟨b1, b2, b3, b4, ?_, ⟨hn1, hn2, hn3, hn4⟩, hl1, hl2, hl3, hl4⟩
  simp only [composeEnglish]
  rw [hb4, hb3, hb2, hb1]
  simp

theorem composeArabic_pages (env : Env) (p : Property) :
    ∃ b1 b2 b3 b4,
      (composeArabic env p).ops =
        Op.addPage :: (b1 ++ Op.addPage :: (b2 ++ Op.addPage ::
          (b3 ++ Op.addPage :: b4))) ∧
      (Op.addPage ∉ b1 ∧ Op.addPage ∉ b2 ∧ Op.addPage ∉ b3 ∧ Op.addPage ∉ b4) ∧
      b1.getLast? = some (pageNumCell 1) ∧ b2.getLast? = some (pageNumCell 2) ∧
      b3.getLast? = some (pageNumCell 3) ∧ b4.getLast? = some (pageNumCell 4) := by
  obtain ⟨b1, hb1, hn1, hl1⟩ :=
    addCoverPageArabic_shape env (mkSvc env) p { ops := [], y := 0 }
  obtain ⟨b2, hb2, hn2, hl2⟩ :=
    addDetailsPageOnly_shape env (mkSvc env) p
      (addCoverPageArabic env (mkSvc env) p { ops := [], y := 0 }) true
  obtain ⟨b3, hb3, hn3, hl3⟩ :=
    addInvestmentAndGalleryPage_shape env (mkSvc env) p
      (addDetailsPageOnly env (mkSvc env) p
        (addCoverPageArabic env (mkSvc env) p { ops := [], y := 0 }) true) true
  obtain ⟨b4, hb4, hn4, hl4⟩ :=
    addContactPageWithLanguage_shape env (mkSvc env) p
      (addInvestmentAndGalleryPage env (mkSvc env) p
        (addDetailsPageOnly env (mkSvc env) p
          (addCoverPageArabic env (mkSvc env) p { ops := [], y := 0 }) true) true)
      true
  refine ⟨b1, b2, b3, b4, ?_, ⟨hn1, hn2, hn3, hn4⟩, hl1, hl2, hl3, hl4⟩
  simp only [composeArabic]
  rw [hb4, hb3, hb2, hb1]
  simp

/-! ### C5 — four pages, page numbers 1..4 in order, non-empty output -/

/-- Claim C5: for every property record and environment, the document composed
by `GenerateEnglishBrochure` and the one composed by `GenerateArabicBrochure`
each consist of exactly 4 pages (the trace splits at its `AddPage` marks into
exactly four page bodies, none skipped), the last drawing operation of page
`i` is the page-number cell "Page i" for `i = 1, 2, 3, 4` in that order, and
on success (no serialization failure) each call returns a non-empty byte
stream. -/
theorem brochures_four_pages (env : Env) (p : Property) :
    (∃ b1 b2 b3 b4,
        splitPages (composeEnglish env p).ops = [b1, b2, b3, b4] ∧
        b1.getLast? = some (pageNumCell 1) ∧ b2.getLast? = some (pageNumCell 2) ∧
        b3.getLast? = some (pageNumCell 3) ∧ b4.getLast? = some (pageNumCell 4)) ∧
    (∃ b1 b2 b3 b4,
        splitPages (composeArabic env p).ops = [b1, b2, b3, b4] ∧
        b1.getLast? = some (pageNumCell 1) ∧ b2.getLast? = some (pageNumCell 2) ∧
        b3.getLast? = some (pageNumCell 3) ∧ b4.getLast? = some (pageNumCell 4)) ∧
    (env.outputError = none →
        (∃ bytes, GenerateEnglishBrochure env p = .ok bytes ∧ bytes ≠ []) ∧
        (∃ bytes, GenerateArabicBrochure env p = .ok bytes ∧ bytes ≠ [])) := by
  refine ⟨?_, ?_, ?_⟩
  · obtain ⟨b1, b2, b3, b4, hops, ⟨hn1, hn2, hn3, hn4⟩, hl1, hl2, hl3, hl4⟩ :=
      composeEnglish_pages env p
    exact ⟨b1, b2, b3, b4,
      by rw [hops]; exact splitPages_four b1 b2 b3 b4 hn1 hn2 hn3 hn4,
      hl1, hl2, hl3, hl4⟩
  · obtain ⟨b1, b2, b3, b4, hops, ⟨hn1, hn2, hn3, hn4⟩, hl1, hl2, hl3, hl4⟩ :=
      composeArabic_pages env p
    exact ⟨b1, b2, b3, b4,
      by rw [hops]; exact splitPages_four b1 b2 b3 b4 hn1 hn2 hn3 hn4,
      hl1, hl2, hl3, hl4⟩
  · intro hout
    have hne : gs "%PDF-" ≠ [] := by decide
    constructor
    · refine ⟨gs "%PDF-" ++ natDigits (composeEnglish env p).ops.length, ?_, ?_⟩
      · simp [GenerateEnglishBrochure, pdfOutput, hout]
      · exact List.append_ne_nil_of_left_ne_nil hne _
    · refine ⟨gs "%PDF-" ++ natDigits (composeArabic env p).ops.length, ?_, ?_⟩
      · simp [GenerateArabicBrochure, pdfOutput, hout]
      · exact List.append_ne_nil_of_left_ne_nil hne _

theorem brochures_four_pages_witness :
    ∃ bytes, GenerateEnglishBrochure envNoAssets pEmpty = .ok bytes ∧ bytes ≠ [] :=
  ((brochures_four_pages envNoAssets pEmpty).2.2 rfl).1

/-! ### C3 — graceful degradation: placeholders instead of failures -/

theorem coverContent_placeholder_mem (env : Env) (svc : Svc) (p : Property)
    (pdf : Pdf) (himg : p.imageURLs = []) :
    Op.rect marginX 26 contentWidth 155 (gs "F") ∈ (coverContent env svc p pdf).ops ∧
    Op.cell contentWidth 10 (gs "No Image Available") 0 (gs "C")
      ∈ (coverContent env svc p pdf).ops := by
  constructor <;>
  · simp only [coverContent]
    refine extendsNP_mem (extendsNP_diamondLines _) ?_
    refine extendsNP_mem (extendsNP_setY _ _) ?_
    refine extendsNP_mem (extendsNP_multiCell _ _ _ _ _ _) ?_
    refine extendsNP_mem (extendsNP_setFont _ _ _ _) ?_
    refine extendsNP_mem (extendsNP_coverPriceBlock _ _) ?_
    refine extendsNP_mem (extendsNP_lnBreak _ _) ?_
    refine extendsNP_mem (extendsNP_titleLinesLoop _ _) ?_
    refine extendsNP_mem (extendsNP_setFont _ _ _ _) ?_
    refine extendsNP_mem (extendsNP_setY _ _) ?_
    simp [coverHeroBlock, himg, Pdf.rect, Pdf.setFont, Pdf.setXY,
      Pdf.cellFormat, Pdf.emit]

theorem coverContentArabic_placeholder_mem (env : Env) (svc : Svc) (p : Property)
    (pdf : Pdf) (himg : p.imageURLs = []) :
    Op.rect marginX 26 contentWidth 155 (gs "F")
      ∈ (coverContentArabic env svc p pdf).ops := by
  simp only [coverContentArabic]
  refine extendsNP_mem (extendsNP_diamondLines _) ?_
  refine extendsNP_mem (extendsNP_setY _ _) ?_
  refine extendsNP_mem (extendsNP_multiCell _ _ _ _ _ _) ?_
  refine extendsNP_mem (extendsNP_setFont _ _ _ _) ?_
  refine extendsNP_mem (extendsNP_coverPriceBlock _ _) ?_
  refine extendsNP_mem (extendsNP_lnBreak _ _) ?_
  refine extendsNP_mem (extendsNP_titleLinesLoop _ _) ?_
  refine extendsNP_mem
    (extendsNP_ite _ (extendsNP_setFont _ _ _ _) (extendsNP_setFont _ _ _ _)) ?_
  refine extendsNP_mem (extendsNP_setY _ _) ?_
  simp [coverHeroBlock, himg, Pdf.rect, Pdf.setFont, Pdf.setXY,
    Pdf.cellFormat, Pdf.emit]

theorem coverContent_fetchfail_mem (env : Env) (svc : Svc) (p : Property)
    (pdf : Pdf) (url : GoStr) (rest : List GoStr)
    (himg : p.imageURLs = url :: rest) (hfetch : env.fetch url = .httpError) :
    Op.cell contentWidth 10 (gs "Image Not Available") 0 (gs "C")
      ∈ (coverContent env svc p pdf).ops := by
  simp only [coverContent]
  refine extendsNP_mem (extendsNP_diamondLines _) ?_
  refine extendsNP_mem (extendsNP_setY _ _) ?_
  refine extendsNP_mem (extendsNP_multiCell _ _ _ _ _ _) ?_
  refine extendsNP_mem (extendsNP_setFont _ _ _ _) ?_
  refine extendsNP_mem (extendsNP_coverPriceBlock _ _) ?_
  refine extendsNP_mem (extendsNP_lnBreak _ _) ?_
  refine extendsNP_mem (extendsNP_titleLinesLoop _ _) ?_
  refine extendsNP_mem (extendsNP_setFont _ _ _ _) ?_
  refine extendsNP_mem (extendsNP_setY _ _) ?_
  simp [coverHeroBlock, himg, addImageFromURL, hfetch, Pdf.rect, Pdf.setFont,
    Pdf.setXY, Pdf.cellFormat, Pdf.emit]

/-- Claim C3: a brochure-generation call fails iff the final serialization
fails — when the encoder reports an error `e` all three generators return the
wrapped error, and when it succeeds all three return `.ok`, for every property
record (in particular regardless of image downloads, decodes, font files and
the image list, since composition is total); furthermore degradation is to
placeholders: with zero images both cover pages draw the grey placeholder box
(and the English one the "No Image Available" cell), and when the hero image
download fails the cover draws the "Image Not Available" cell instead of
aborting. -/
theorem generation_fails_only_on_serialization (env : Env) (p : Property) :
    ((∀ e, env.outputError = some e →
        GenerateBrochure env p = .error (gs "failed to generate PDF: " ++ e) ∧
        GenerateEnglishBrochure env p =
          .error (gs "failed to generate English PDF: " ++ e) ∧
        GenerateArabicBrochure env p =
          .error (gs "failed to generate Arabic PDF: " ++ e)) ∧
      (env.outputError = none →
        (∃ b, GenerateBrochure env p = .ok b) ∧
        (∃ b, GenerateEnglishBrochure env p = .ok b) ∧
        (∃ b, GenerateArabicBrochure env p = .ok b))) ∧
    (p.imageURLs = [] →
        Op.rect marginX 26 contentWidth 155 (gs "F") ∈ (composeEnglish env p).ops ∧
        Op.cell contentWidth 10 (gs "No Image Available") 0 (gs "C")
          ∈ (composeEnglish env p).ops ∧
        Op.rect marginX 26 contentWidth 155 (gs "F") ∈ (composeArabic env p).ops) ∧
    (∀ url rest, p.imageURLs = url :: rest → env.fetch url = .httpError →
        Op.cell contentWidth 10 (gs "Image Not Available") 0 (gs "C")
          ∈ (composeEnglish env p).ops) := by
  refine ⟨⟨?_, ?_⟩, ?_, ?_⟩
  · intro e he
    refine ⟨?_, ?_, ?_⟩ <;>
      simp [GenerateBrochure, GenerateEnglishBrochure, GenerateArabicBrochure,
        pdfOutput, he]
  · intro hnone
    exact ⟨⟨gs "%PDF-" ++ natDigits (composeBrochure env p).ops.length,
        by simp [GenerateBrochure, pdfOutput, hnone]⟩,
      ⟨gs "%PDF-" ++ natDigits (composeEnglish env p).ops.length,
        by simp [GenerateEnglishBrochure, pdfOutput, hnone]⟩,
      ⟨gs "%PDF-" ++ natDigits (composeArabic env p).ops.length,
        by simp [GenerateArabicBrochure, pdfOutput, hnone]⟩⟩
  · intro himg
    refine ⟨?_, ?_, ?_⟩
    · simp only [composeEnglish, addContactPage, addContactPageWithLanguage,
        addDetailsPageOnly, addInvestmentAndGalleryPage, addCoverPage]
      refine page_mem (contactContent env (mkSvc env) p false)
        (fun q => extendsNP_contactContent env (mkSvc env) p false q) 4 _ ?_
      refine page_mem (investmentContent env (mkSvc env) p false)
        (fun q => extendsNP_investmentContent env (mkSvc env) p false q) 3 _ ?_
      refine page_mem (detailsContent env (mkSvc env) p false)
        (fun q => extendsNP_detailsContent env (mkSvc env) p false q) 2 _ ?_
      refine extendsNP_mem (extendsNP_addPageNumber _ _) ?_
      exact (coverContent_placeholder_mem env (mkSvc env) p _ himg).1
    · simp only [composeEnglish, addContactPage, addContactPageWithLanguage,
        addDetailsPageOnly, addInvestmentAndGalleryPage, addCoverPage]
      refine page_mem (contactContent env (mkSvc env) p false)
        (fun q => extendsNP_contactContent env (mkSvc env) p false q) 4 _ ?_
      refine page_mem (investmentContent env (mkSvc env) p false)
        (fun q => extendsNP_investmentContent env (mkSvc env) p false q) 3 _ ?_
      refine page_mem (detailsContent env (mkSvc env) p false)
        (fun q => extendsNP_detailsContent env (mkSvc env) p false q) 2 _ ?_
      refine extendsNP_mem (extendsNP_addPageNumber _ _) ?_
      exact (coverContent_placeholder_mem env (mkSvc env) p _ himg).2
    · simp only [composeArabic, addContactPageWithLanguage,
        addDetailsPageOnly, addInvestmentAndGalleryPage, addCoverPageArabic]
      refine page_mem (contactContent env (mkSvc env) p true)
        (fun q => extendsNP_contactContent env (mkSvc env) p true q) 4 _ ?_
      refine page_mem (investmentContent env (mkSvc env) p true)
        (fun q => extendsNP_investmentContent env (mkSvc env) p true q) 3 _ ?_
      refine page_mem (detailsContent env (mkSvc env) p true)
        (fun q => extendsNP_detailsContent env (mkSvc env) p true q) 2 _ ?_
      refine extendsNP_mem (extendsNP_addPageNumber _ _) ?_
      exact coverContentArabic_placeholder_mem env (mkSvc env) p _ himg
  · intro url rest himg hfetch
    simp only [composeEnglish, addContactPage, addContactPageWithLanguage,
      addDetailsPageOnly, addInvestmentAndGalleryPage, addCoverPage]
    refine page_mem (contactContent env (mkSvc env) p false)
      (fun q => extendsNP_contactContent env (mkSvc env) p false q) 4 _ ?_
    refine page_mem (investmentContent env (mkSvc env) p false)
      (fun q => extendsNP_investmentContent env (mkSvc env) p false q) 3 _ ?_
    refine page_mem (detailsContent env (mkSvc env) p false)
      (fun q => extendsNP_detailsContent env (mkSvc env) p false q) 2 _ ?_
    refine extendsNP_mem (extendsNP_addPageNumber _ _) ?_
    exact coverContent_fetchfail_mem env (mkSvc env) p _ url rest himg hfetch

theorem generation_fails_only_on_serialization_witness :
    GenerateEnglishBrochure envFailingOutput pEmpty =
      .error (gs "failed to generate English PDF: " ++ gs "encoder error") ∧
    (∃ b, GenerateEnglishBrochure envNoAssets pEmpty = .ok b) ∧
    Op.rect marginX 26 contentWidth 155 (gs "F")
      ∈ (composeEnglish envNoAssets pEmpty).ops ∧
    Op.cell contentWidth 10 (gs "No Image Available") 0 (gs "C")
      ∈ (composeEnglish envNoAssets pEmpty).ops ∧
    Op.cell contentWidth 10 (gs "Image Not Available") 0 (gs "C")
      ∈ (composeEnglish envNoAssets pOneImage).ops :=
  ⟨((generation_fails_only_on_serialization envFailingOutput pEmpty).1.1
      (gs "encoder error") rfl).2.1,
    ((generation_fails_only_on_serialization envNoAssets pEmpty).1.2 rfl).2.1,
    ((generation_fails_only_on_serialization envNoAssets pEmpty).2.1 rfl).1,
    ((generation_fails_only_on_serialization envNoAssets pEmpty).2.1 rfl).2.1,
    (generation_fails_only_on_serialization envNoAssets pOneImage).2.2
      (gs "hero.jpg") [] rfl rfl⟩

/-! ### C6 — the details page labels -/

theorem extendsNP_from_desc_header (env : Env) (svc : Svc) (p : Property)
    (pdf : Pdf) (y : ℚ) :
    ExtendsNP (addSectionHeader pdf (englishDetailsData p).descLabel y).1
      (addEnglishDetailsContent env svc p pdf y).1 := by
  simp only [addEnglishDetailsContent]
  refine extendsNP_ite_fst _ ?_ ?_
  · refine extendsNP_trans ?_ (extendsNP_amenitiesGridEn _ _ _ _)
    refine extendsNP_trans ?_ (extendsNP_setFont _ _ _ _)
    refine extendsNP_trans ?_ (extendsNP_addSectionHeader _ _ _)
    refine extendsNP_ite_fst _ ?_ ?_
    · refine extendsNP_trans ?_ (extendsNP_highlightsLoopEn _ _ _ _)
      refine extendsNP_trans ?_ (extendsNP_setFont _ _ _ _)
      refine extendsNP_trans ?_ (extendsNP_addSectionHeader _ _ _)
      refine extendsNP_trans ?_ (extendsNP_multiCell _ _ _ _ _ _)
      refine extendsNP_trans ?_ (extendsNP_setXY _ _ _)
      refine extendsNP_trans ?_
        (extendsNP_ite _ (extendsNP_setFont _ _ _ _) (extendsNP_setFont _ _ _ _))
      exact extendsNP_refl _
    · refine extendsNP_trans ?_ (extendsNP_multiCell _ _ _ _ _ _)
      refine extendsNP_trans ?_ (extendsNP_setXY _ _ _)
      refine extendsNP_trans ?_
        (extendsNP_ite _ (extendsNP_setFont _ _ _ _) (extendsNP_setFont _ _ _ _))
      exact extendsNP_refl _
  · refine extendsNP_ite_fst _ ?_ ?_
    · refine extendsNP_trans ?_ (extendsNP_highlightsLoopEn _ _ _ _)
      refine extendsNP_trans ?_ (extendsNP_setFont _ _ _ _)
      refine extendsNP_trans ?_ (extendsNP_addSectionHeader _ _ _)
      refine extendsNP_trans ?_ (extendsNP_multiCell _ _ _ _ _ _)
      refine extendsNP_trans ?_ (extendsNP_setXY _ _ _)
      refine extendsNP_trans ?_
        (extendsNP_ite _ (extendsNP_setFont _ _ _ _) (extendsNP_setFont _ _ _ _))
      exact extendsNP_refl _
    · refine extendsNP_trans ?_ (extendsNP_multiCell _ _ _ _ _ _)
      refine extendsNP_trans ?_ (extendsNP_setXY _ _ _)
      refine extendsNP_trans ?_
        (extendsNP_ite _ (extendsNP_setFont _ _ _ _) (extendsNP_setFont _ _ _ _))
      exact extendsNP_refl _

theorem addSectionHeader_cell_mem (pdf : Pdf) (t : GoStr) (y : ℚ) :
    Op.cell (contentWidth - 10) 7 t 0 (gs "L") ∈ (addSectionHeader pdf t y).1.ops := by
  simp [addSectionHeader, Pdf.rect, Pdf.setXY, Pdf.setFont, Pdf.cellFormat,
    Pdf.line, Pdf.emit]

/-- Claim C6 (counterexample): the built-in default labels are NOT applied at
render time.  For `pEmptyLabels` — a property whose localized English
description is non-empty while every localized label is empty — the details
page draws the description section header with the empty label (an empty
header cell is in its trace), and no drawn cell of the whole details page
carries the built-in default text "Property Description". -/
theorem details_empty_label_not_defaulted :
    (englishDetailsData pEmptyLabels).descLabel = [] ∧
    Op.cell (contentWidth - 10) 7 [] 0 (gs "L")
      ∈ (addDetailsPageOnly envNoAssets (mkSvc envNoAssets) pEmptyLabels
          { ops := [], y := 0 } false).ops ∧
    drawsText
      (addDetailsPageOnly envNoAssets (mkSvc envNoAssets) pEmptyLabels
        { ops := [], y := 0 } false).ops
      (gs "Property Description") = false := by
  have hd : (englishDetailsData pEmptyLabels).descLabel = [] := by decide
  refine ⟨hd, ?_, by decide⟩
  simp only [addDetailsPageOnly, detailsContent]
  refine extendsNP_mem (extendsNP_addPageNumber _ _) ?_
  refine extendsNP_mem (extendsNP_addBottomDiamondDecoration _) ?_
  rw [if_neg (by simp : ¬((false : Bool) = true))]
  refine extendsNP_mem
    (extendsNP_from_desc_header envNoAssets (mkSvc envNoAssets) pEmptyLabels _ _) ?_
  rw [hd]
  exact addSectionHeader_cell_mem _ [] _

/-- Claim C6 (amended): whenever `LocalizedContent[language].description` is
non-empty, the details-page content and its three section labels are taken
entirely and VERBATIM from that `LocalizedContent` — an empty label is drawn
as-is, not replaced by a built-in default (that defaulting happens in the AI
content-generation service, not in the PDF renderer); in particular the
description section header cell is drawn with exactly the stored label
text. -/
theorem details_labels_verbatim (env : Env) (svc : Svc) (p : Property)
    (pdf : Pdf) (y : ℚ) (hen : p.englishContent.description ≠ [])
    (har : p.arabicContent.description ≠ []) :
    englishDetailsData p =
      { descLabel := p.englishContent.propertyDescriptionLabel
        highlightsLabel := p.englishContent.keyHighlightsLabel
        amenitiesLabel := p.englishContent.amenitiesLabel
        description := p.englishContent.description
        highlights := p.englishContent.highlights
        amenities := p.englishContent.amenities } ∧
    arabicDetailsData p =
      { descLabel := p.arabicContent.propertyDescriptionLabel
        highlightsLabel := p.arabicContent.keyHighlightsLabel
        amenitiesLabel := p.arabicContent.amenitiesLabel
        description := p.arabicContent.description
        highlights := p.arabicContent.highlights
        amenities := p.arabicContent.amenities } ∧
    Op.cell (contentWidth - 10) 7 p.englishContent.propertyDescriptionLabel 0 (gs "L")
      ∈ (addEnglishDetailsContent env svc p pdf y).1.ops := by
  have hd : (englishDetailsData p).descLabel =
      p.englishContent.propertyDescriptionLabel := by
    simp [englishDetailsData, hen]
  refine ⟨by simp [englishDetailsData, hen], by simp [arabicDetailsData, har], ?_⟩
  refine extendsNP_mem (extendsNP_from_desc_header env svc p pdf y) ?_
  rw [← hd]
  exact addSectionHeader_cell_mem pdf _ y

theorem details_labels_verbatim_witness :
    englishDetailsData pLocalized =
      { descLabel := pLocalized.englishContent.propertyDescriptionLabel
        highlightsLabel := pLocalized.englishContent.keyHighlightsLabel
        amenitiesLabel := pLocalized.englishContent.amenitiesLabel
        description := pLocalized.englishContent.description
        highlights := pLocalized.englishContent.highlights
        amenities := pLocalized.englishContent.amenities } ∧
    Op.cell (contentWidth - 10) 7 pLocalized.englishContent.propertyDescriptionLabel
        0 (gs "L")
      ∈ (addEnglishDetailsContent envNoAssets (mkSvc envNoAssets) pLocalized
          { ops := [], y := 0 } 30).1.ops :=
  ⟨(details_labels_verbatim envNoAssets (mkSvc envNoAssets) pLocalized
      { ops := [], y := 0 } 30 (by decide) (by decide)).1,
    (details_labels_verbatim envNoAssets (mkSvc envNoAssets) pLocalized
      { ops := [], y := 0 } 30 (by decide) (by decide)).2.2⟩

/-! ### C7 — image identifiers: the per-page logo placements collide -/

theorem count_le_of_extendsNP {p q : Pdf} (o : Op) (h : ExtendsNP p q) :
    p.ops.count o ≤ q.ops.count o := by
  obtain ⟨d, hd, _⟩ := h
  rw [hd, List.count_append]
  exact Nat.le_add_right _ _

theorem extendsNP_coverContent_from_branding (env : Env) (svc : Svc)
    (p : Property) (q : Pdf) :
    ExtendsNP (addBrandingIfAvailable env svc (addPageBackground q))
      (coverContent env svc p q) := by
  simp only [coverContent]
  refine extendsNP_trans ?_ (extendsNP_diamondLines _)
  refine extendsNP_trans ?_ (extendsNP_setY _ _)
  refine extendsNP_trans ?_ (extendsNP_multiCell _ _ _ _ _ _)
  refine extendsNP_trans ?_ (extendsNP_setFont _ _ _ _)
  refine extendsNP_trans ?_ (extendsNP_coverPriceBlock _ _)
  refine extendsNP_trans ?_ (extendsNP_lnBreak _ _)
  refine extendsNP_trans ?_ (extendsNP_titleLinesLoop _ _)
  refine extendsNP_trans ?_ (extendsNP_setFont _ _ _ _)
  refine extendsNP_trans ?_ (extendsNP_setY _ _)
  refine extendsNP_trans ?_ (extendsNP_coverHeroBlock _ _ _)
  refine extendsNP_trans ?_ (extendsNP_rect _ _ _ _ _ _)
  refine extendsNP_trans ?_ (extendsNP_cellFormat _ _ _ _ _ _)
  refine extendsNP_trans ?_ (extendsNP_setFont _ _ _ _)
  refine extendsNP_trans ?_ (extendsNP_setY _ _)
  exact extendsNP_addDecorativeCorners _

theorem extendsNP_detailsContent_from_branding (env : Env) (svc : Svc)
    (p : Property) (isArabic : Bool) (q : Pdf) :
    ExtendsNP (addBrandingIfAvailable env svc (addPageBackground q))
      (detailsContent env svc p isArabic q) := by
  simp only [detailsContent]
  refine extendsNP_trans ?_ (extendsNP_addBottomDiamondDecoration _)
  exact extendsNP_ite_fst _ (extendsNP_addArabicDetailsContent _ _ _ _ _)
    (extendsNP_addEnglishDetailsContent _ _ _ _ _)

theorem backgroundOps (q : Pdf) :
    (addPageBackground q).ops =
      q.ops ++ [Op.rect 0 0 pageWidth pageHeight (gs "F")] := rfl

theorem brandingLogo_ops (q : Pdf) :
    (addBrandingIfAvailable envLogo (mkSvc envLogo) q).ops = q.ops ++ [logoOp] := by
  have h1 : (mkSvc envLogo).brandLogoURL = gs "logo.png" := by decide
  have h2 : envLogo.fetch (gs "logo.png") = FetchResult.decodeError := rfl
  rw [addBrandingIfAvailable, h1,
    if_neg (by decide : ¬(gs "logo.png" = ([] : GoStr)))]
  simp only [addImageFromURL, h2, Pdf.emit, logoOp]

theorem count_logoOp_branding (q : Pdf) :
    (addBrandingIfAvailable envLogo (mkSvc envLogo)
        (addPageBackground q.addPage)).ops.count logoOp
      = q.ops.count logoOp + 1 := by
  rw [brandingLogo_ops, backgroundOps, addPage_ops]
  simp [List.count_append, List.count_cons, List.count_nil, logoOp]

theorem count_logoOp_page (mid : Pdf → Pdf)
    (hmid : ∀ q : Pdf, ExtendsNP
      (addBrandingIfAvailable envLogo (mkSvc envLogo) (addPageBackground q))
      (mid q)) (n : Nat) (pdf : Pdf) :
    pdf.ops.count logoOp + 1 ≤ (addPageNumber (mid pdf.addPage) n).ops.count logoOp := by
  refine le_trans ?_ (count_le_of_extendsNP logoOp (extendsNP_addPageNumber _ _))
  refine le_trans ?_ (count_le_of_extendsNP logoOp (hmid pdf.addPage))
  exact le_of_eq (count_logoOp_branding pdf).symm

/-- Claim C7 (counterexample): image identifiers are NOT unique within one
document.  Under `envLogo` every page places the branding logo in the same
top-right box, and `addImageFromURL` derives the identifier from the URL
suffix and the rounded target position only, so distinct placements collide:
the English brochure trace contains the logo placement operation — with its
single identifier — at least twice (once on the cover page and once on the
details page alone). -/
theorem logo_identifier_not_unique :
    2 ≤ (composeEnglish envLogo pEmpty).ops.count logoOp := by
  simp only [composeEnglish, addContactPage, addContactPageWithLanguage,
    addDetailsPageOnly, addInvestmentAndGalleryPage, addCoverPage]
  refine le_trans ?_
    (count_le_page (contactContent envLogo (mkSvc envLogo) pEmpty false)
      (fun q => extendsNP_contactContent envLogo (mkSvc envLogo) pEmpty false q)
      4 _ logoOp)
  refine le_trans ?_
    (count_le_page (investmentContent envLogo (mkSvc envLogo) pEmpty false)
      (fun q => extendsNP_investmentContent envLogo (mkSvc envLogo) pEmpty false q)
      3 _ logoOp)
  refine le_trans ?_
    (count_logoOp_page (detailsContent envLogo (mkSvc envLogo) pEmpty false)
      (fun q =>
        extendsNP_detailsContent_from_branding envLogo (mkSvc envLogo) pEmpty false q)
      2 _)
  have h1 := count_logoOp_page (coverContent envLogo (mkSvc envLogo) pEmpty)
    (fun q => extendsNP_coverContent_from_branding envLogo (mkSvc envLogo) pEmpty q)
    1 { ops := [], y := 0 }
  omega

/-! ### C7 — what the identifier is determined by -/

theorem digitsVal_append (l : GoStr) (c : Nat) :
    digitsVal (l ++ [c]) = digitsVal l * 10 + (c - 0x30) := by
  simp [digitsVal, List.foldl_append]

theorem natDigitsCore_digits (f : Nat) :
    ∀ n c, c ∈ natDigitsCore f n → 0x30 ≤ c ∧ c ≤ 0x39 := by
  induction f with
  | zero => intro n c hc; simp [natDigitsCore] at hc
  | succ f ih =>
    intro n c hc
    simp only [natDigitsCore] at hc
    by_cases h10 : n < 10
    · rw [if_pos h10] at hc
      simp at hc
      omega
    · rw [if_neg h10] at hc
      rcases List.mem_append.mp hc with h | h
      · exact ih _ _ h
      · simp at h
        omega

theorem digitsVal_natDigitsCore (f : Nat) :
    ∀ n, n < 10 ^ f → digitsVal (natDigitsCore f n) = n := by
  induction f with
  | zero =>
    intro n hn
    have : n = 0 := by simpa using hn
    subst this
    simp [natDigitsCore, digitsVal]
  | succ f ih =>
    intro n hn
    have hp : (10 : Nat) ^ (f + 1) = 10 ^ f * 10 := pow_succ 10 f
    simp only [natDigitsCore]
    split_ifs with h10
    · simp only [digitsVal, List.foldl_cons, List.foldl_nil]
      omega
    · have hdiv : n / 10 < 10 ^ f := Nat.div_lt_of_lt_mul (by omega)
      rw [digitsVal_append, ih (n / 10) hdiv]
      omega

theorem natDigits_val (n : Nat) : digitsVal (natDigits n) = n := by
  refine digitsVal_natDigitsCore (n + 1) n ?_
  calc n < 10 ^ n := Nat.lt_pow_self (by norm_num) n
    _ ≤ 10 ^ (n + 1) := Nat.pow_le_pow_right (by norm_num) (Nat.le_succ n)

theorem natDigits_inj {m n : Nat} (h : natDigits m = natDigits n) : m = n := by
  have hv := congrArg digitsVal h
  rwa [natDigits_val, natDigits_val] at hv

theorem intToGoStr_inj {i j : Int} (h : intToGoStr i = intToGoStr j) : i = j := by
  unfold intToGoStr at h
  split_ifs at h with hi hj hj
  · simp only [List.cons.injEq] at h
    have := natDigits_inj h.2
    omega
  · have hm : (0x2D : Nat) ∈ natDigits j.natAbs := by
      rw [← h]
      exact List.mem_cons_self _ _
    simp only [natDigits] at hm
    have := natDigitsCore_digits _ _ _ hm
    omega
  · have hm : (0x2D : Nat) ∈ natDigits i.natAbs := by
      rw [h]
      exact List.mem_cons_self _ _
    simp only [natDigits] at hm
    have := natDigitsCore_digits _ _ _ hm
    omega
  · have := natDigits_inj h
    omega

theorem sep_not_in_intToGoStr (i : Int) : (0x5F : Nat) ∉ intToGoStr i := by
  intro hm
  unfold intToGoStr at hm
  split_ifs at hm
  · rcases List.mem_cons.mp hm with h | h
    · omega
    · simp only [natDigits] at h
      have := natDigitsCore_digits _ _ _ h
      omega
  · simp only [natDigits] at hm
    have := natDigitsCore_digits _ _ _ hm
    omega

theorem append_sep_inj :
    ∀ (a c b d : List Nat), (0x5F : Nat) ∉ a → (0x5F : Nat) ∉ c →
      a ++ 0x5F :: b = c ++ 0x5F :: d → a = c ∧ b = d := by
  intro a
  induction a with
  | nil =>
    intro c b d _ hc h
    cases c with
    | nil => simpa using h
    | cons e c2 =>
      simp only [List.nil_append, List.cons_append, List.cons.injEq] at h
      refine absurd ?_ hc
      rw [h.1]
      exact List.mem_cons_self _ _
  | cons x a ih =>
    intro c b d ha hc h
    cases c with
    | nil =>
      simp only [List.cons_append, List.nil_append, List.cons.injEq] at h
      refine absurd ?_ ha
      rw [← h.1]
      exact List.mem_cons_self _ _
    | cons e c2 =>
      simp only [List.cons_append, List.cons.injEq] at h
      have ha2 : (0x5F : Nat) ∉ a := fun hm => ha (List.mem_cons_of_mem _ hm)
      have hc2 : (0x5F : Nat) ∉ c2 := fun hm => hc (List.mem_cons_of_mem _ hm)
      obtain ⟨h1, h2⟩ := ih c2 b d ha2 hc2 h.2
      exact ⟨by rw [h.1, h1], h2⟩

/-- Claim C7 (amended): the identifier registered by `addImageFromURL` is
exactly determined by the last-20-byte URL suffix and the integer-rounded
final coordinates: two placements receive the same identifier if and only if
those three values agree.  In particular the identifier is deterministic
per (URL, rounded position), and two placements of the same URL at the same
box — such as the per-page branding logo — share one identifier rather than
getting document-unique ones. -/
theorem uniqueImageName_eq_iff (u1 u2 : GoStr) (x1 y1 x2 y2 : ℚ) :
    uniqueImageName u1 x1 y1 = uniqueImageName u2 x2 y2 ↔
      (urlSuffixLast20 u1 = urlSuffixLast20 u2 ∧
        goRound x1 = goRound x2 ∧ goRound y1 = goRound y2) := by
  constructor
  · intro h
    simp only [uniqueImageName] at h
    have h' := congrArg List.reverse h
    simp only [List.reverse_append, List.reverse_cons, List.reverse_nil,
      List.nil_append, List.append_assoc, List.cons_append,
      List.singleton_append] at h'
    obtain ⟨hy, hrest⟩ := append_sep_inj _ _ _ _
      (fun hm => sep_not_in_intToGoStr _ (List.mem_reverse.mp hm))
      (fun hm => sep_not_in_intToGoStr _ (List.mem_reverse.mp hm)) h'
    obtain ⟨hx, hs⟩ := append_sep_inj _ _ _ _
      (fun hm => sep_not_in_intToGoStr _ (List.mem_reverse.mp hm))
      (fun hm => sep_not_in_intToGoStr _ (List.mem_reverse.mp hm)) hrest
    refine ⟨?_, ?_, ?_⟩
    · exact List.reverse_injective (List.append_cancel_right hs)
    · exact intToGoStr_inj (List.reverse_injective hx)
    · exact intToGoStr_inj (List.reverse_injective hy)
  · intro ⟨h1, h2, h3⟩
    simp only [uniqueImageName, h1, h2, h3]

end Brochure
